import Mathlib

/-!
Verification of the ai-genesis simulation core against its specification.

Each section embeds one part of the Python source (backend/core and the
mutation pipeline) as executable Lean definitions and proves or refutes
the specification's claims about it.

Modelling conventions, used throughout:
 - Python floats are modelled as rationals (ℚ).  All inputs used in
   concrete counterexamples are chosen so that every intermediate float
   value in the source would be computed without rounding surprises.
 - `math.sqrt` is modelled by `sqrtQ`, which is exact whenever the
   argument is the square of a rational (every concrete input below is)
   and a monotone underapproximation otherwise.
 - Python `str.lower()` is modelled on the ASCII range; trait names are
   Python identifiers, for which this agrees with the source.
 - Dictionaries keyed by id are modelled as insertion-ordered
   association lists; Python dict keys are unique, so entity ids in the
   modelled world are unique by construction.
-/

attribute [local semireducible] Rat.mul Rat.add Rat.sub Rat.inv

namespace AiGenesis

/-- A Python exception value, as far as the embedded code can raise one. -/
inductive PyErr where
  | attributeError (name : String)
  deriving Repr, DecidableEq

/-! ## Canonical trait names — backend/core/dynamic_registry.py, `canonical_name`

The Python function is

    name = re.sub(r"Trait$", "", name)
    name = re.sub(r"(?<=[A-Z])(?=[A-Z][a-z])", "_", name)
    name = re.sub(r"(?<=[a-z0-9])(?=[A-Z])", "_", name)
    return name.lower().strip("_")

Both regex substitutions insert `_` at every zero-width position whose
context matches, which is what `ins1`/`ins2` compute position by position.
-/

/-- `[A-Z]` test (ASCII, as the regex classes in the source). -/
def isUpA (c : Char) : Bool := decide (65 ≤ c.toNat ∧ c.toNat ≤ 90)

/-- `[a-z]` test. -/
def isLowA (c : Char) : Bool := decide (97 ≤ c.toNat ∧ c.toNat ≤ 122)

/-- `[0-9]` test. -/
def isDigA (c : Char) : Bool := decide (48 ≤ c.toNat ∧ c.toNat ≤ 57)

/-- ASCII lower-casing of one character, modelling `str.lower()` on
identifier characters. -/
def toLowerA (c : Char) : Char :=
  if isUpA c then Char.ofNat (c.toNat + 32) else c

/-- Does `re.sub(r"(?<=[A-Z])(?=[A-Z][a-z])", "_", ·)` insert after this
head character, given the rest of the string? -/
def needUnder1 (a : Char) (rest : List Char) : Bool :=
  match rest with
  | b :: c :: _ => isUpA a && isUpA b && isLowA c
  | _ => false

/-- First underscore-insertion pass of `canonical_name`. -/
def ins1 : List Char → List Char
  | [] => []
  | a :: rest => (if needUnder1 a rest then [a, '_'] else [a]) ++ ins1 rest

/-- Does `re.sub(r"(?<=[a-z0-9])(?=[A-Z])", "_", ·)` insert after this
head character, given the rest of the string? -/
def needUnder2 (a : Char) (rest : List Char) : Bool :=
  match rest with
  | b :: _ => (isLowA a || isDigA a) && isUpA b
  | _ => false

/-- Second underscore-insertion pass of `canonical_name`. -/
def ins2 : List Char → List Char
  | [] => []
  | a :: rest => (if needUnder2 a rest then [a, '_'] else [a]) ++ ins2 rest

/-- Does the name end in the five characters `Trait`? -/
def hasSuffixT (l : List Char) : Bool :=
  decide (l.reverse.take 5 = ['t', 'i', 'a', 'r', 'T'])

/-- `re.sub(r"Trait$", "", name)`: drop one trailing `Trait` if present. -/
def stripT (l : List Char) : List Char :=
  if hasSuffixT l then (l.reverse.drop 5).reverse else l

/-- Python `str.strip("_")`: drop leading and trailing underscores. -/
def stripUnder (l : List Char) : List Char :=
  ((l.dropWhile (fun c => decide (c = '_'))).reverse.dropWhile
    (fun c => decide (c = '_'))).reverse

/-- Character-list form of `canonical_name`. -/
def canonList (l : List Char) : List Char :=
  stripUnder ((ins2 (ins1 (stripT l))).map toLowerA)

/-- `canonical_name` from backend/core/dynamic_registry.py. -/
def canonicalName (s : String) : String :=
  String.mk (canonList s.data)

/-- No ASCII-uppercase character occurs in the list. -/
def NoUp (l : List Char) : Prop := ∀ c ∈ l, isUpA c = false

/-! ## The simulation world — backend/core/entity.py, entity_manager.py,
environment.py

Entities and resources live in insertion-ordered lists (Python dict
values).  The uniform spatial hash grids are association lists from grid
cell to member id, exactly as maintained by the source.
-/

/-- Fuel-driven integer square root (largest k with k² ≤ n; the fuel n
always suffices).  Structural recursion keeps it kernel-computable. -/
def isqrtGo (n : ℕ) : ℕ → ℕ → ℕ
  | 0, acc => acc
  | fuel + 1, acc =>
    if (acc + 1) * (acc + 1) ≤ n then isqrtGo n fuel (acc + 1) else acc

/-- Integer square root, floor-exact. -/
def isqrt (n : ℕ) : ℕ := isqrtGo n n 0

/-- Square root on ℚ: exact when the argument is the square of a
rational (sqrt(a/b) = sqrt(a·b)/b), an underapproximation otherwise.
Models `math.sqrt` / `** 0.5`; every concrete input in this file is an
exact square. -/
def sqrtQ (q : ℚ) : ℚ :=
  if q ≤ 0 then 0 else (isqrt (q.num.toNat * q.den) : ℚ) / (q.den : ℚ)

/-- Dispatch tag: which Python class the entity object belongs to
(`BaseEntity` from entity.py or `PredatorEntity` from predator.py).
`update` is virtual and the predator subclass overrides it. -/
inductive EClass where
  | base
  | predator
  deriving Repr, DecidableEq

/-- A trait instance held in an entity's trait list.  Behaviour is
supplied externally (traits are arbitrary validated LLM code); the
instance itself carries only its class `__name__`, which is all the
executor and the registry-upgrade pass inspect. -/
structure TraitInst where
  className : String
  deriving Repr, DecidableEq

/-- `BaseEntity` (backend/core/entity.py).  `hasEnv` / `hasMgr` model
whether the `_environment` / `_entity_manager` back-references are set
(the engine sets them after spawn).  `traitGain` is
`_trait_energy_gain`. -/
structure Entity where
  id : String
  x : ℚ
  y : ℚ
  energy : ℚ
  maxEnergy : ℚ
  radius : ℚ
  age : ℕ
  maxAge : ℕ
  state : String
  entityType : String
  infected : Bool
  infectionTimer : ℕ
  traits : List TraitInst
  deactivated : List String
  metabolismRate : ℚ
  traitGain : ℚ
  hasEnv : Bool
  hasMgr : Bool
  cls : EClass
  deriving Repr, DecidableEq

/-- `BaseEntity.is_alive`. -/
def Entity.isAlive (e : Entity) : Bool := e.state = "alive"

/-- A food resource (backend/core/environment.py, `Resource`). -/
structure Resource where
  id : String
  x : ℚ
  y : ℚ
  amount : ℚ
  deriving Repr, DecidableEq

/-- The settings fields of backend/config.py `Settings` that the
embedded code reads.  The source class declares NO `spawn_rate`,
`predator_spawn_threshold`, `max_predators`, `virus_spawn_threshold` or
`virus_duration_ticks` fields although the engine reads them; reading
them raises `AttributeError`, which the affected stage models below
reproduce. -/
structure GSettings where
  tickRateMs : ℕ
  maxEntities : ℕ
  minPopulation : ℕ
  worldWidth : ℚ
  worldHeight : ℚ
  traitTimeoutSec : ℚ
  tickTimeBudgetSec : ℚ
  maxActiveTraits : ℕ
  maxTraitVersionsKept : ℕ
  snapshotIntervalTicks : ℕ
  deriving Repr, DecidableEq

/-- Defaults from backend/config.py. -/
def defaultSettings : GSettings where
  tickRateMs := 16
  maxEntities := 500
  minPopulation := 20
  worldWidth := 2000
  worldHeight := 2000
  traitTimeoutSec := 5 / 1000
  tickTimeBudgetSec := 14 / 1000
  maxActiveTraits := 30
  maxTraitVersionsKept := 3
  snapshotIntervalTicks := 300

/-- Boundary mode of WorldPhysics. -/
inductive BMode where
  | bounce
  | wrap
  deriving Repr, DecidableEq

/-- Whole simulation state: EntityManager + Environment + the engine
fields the embedded code touches.  `deliveredLog` is an observation log
of every energy amount credited through `_receive_energy`
(one entry per credit), used to state the sandbox theorems. -/
structure Sim where
  entities : List Entity
  entityGrid : List (Int × Int × String)
  resources : List Resource
  resourceGrid : List (Int × Int × String)
  reported : List String
  feed : List String
  deliveredLog : List ℚ
  callbackLog : List String
  settings : GSettings
  boundaryMode : BMode
  deriving Repr, DecidableEq

/-- Floor of a rational as an integer (`int(a // b)` on floats is the
floor; `Int.fdiv` is floor division and the denominator is positive). -/
def floorQ (q : ℚ) : Int := Int.fdiv q.num (q.den : Int)

/-- Grid cell of a position (`_get_cell_coords`, CELL_SIZE = 50). -/
def cellOf (x y : ℚ) : Int × Int := (floorQ (x / 50), floorQ (y / 50))

/-- `self._entities.get(id)` — first (unique) entry with this id. -/
def findEntity (s : Sim) (id : String) : Option Entity :=
  s.entities.find? (fun e => e.id = id)

/-- Apply `f` to the entity object with the given id (in-place object
mutation in the source). -/
def modifyEntity (s : Sim) (id : String) (f : Entity → Entity) : Sim :=
  { s with entities := s.entities.map (fun e => if e.id = id then f e else e) }

/-- Both integer endpoints of a cell range, inclusive
(`range(cell_min, cell_max + 1)`). -/
def intRangeIncl (a b : Int) : List Int :=
  (List.range (b + 1 - a).toNat).map (fun k => a + (k : Int))

/-- Cells touched by the square around `(x, y)` of half-width `r`
(the cell loops of `nearby_entities` / `nearby_resources`). -/
def cellsInRange (x y r : ℚ) : List (Int × Int) :=
  (intRangeIncl (floorQ ((x - r) / 50)) (floorQ ((x + r) / 50))).flatMap (fun cx =>
    (intRangeIncl (floorQ ((y - r) / 50)) (floorQ ((y + r) / 50))).map
      (fun cy => (cx, cy)))

/-- Ids recorded in the given grid under any of the given cells (the
`nearby_ids` set; set semantics as deduplicated first-occurrence
order). -/
def gridIdsIn (grid : List (Int × Int × String)) (cells : List (Int × Int)) :
    List String :=
  ((grid.filter (fun ent => (ent.1, ent.2.1) ∈ cells)).map (fun ent => ent.2.2)).dedup

/-- `EntityManager.nearby_entities`: collect ids from the grid cells
covering the disk, then filter by liveness and exact squared
distance. -/
def nearbyEntities (s : Sim) (x y r : ℚ) : List Entity :=
  ((gridIdsIn s.entityGrid (cellsInRange x y r)).filterMap
    (fun id => findEntity s id)).filter
    (fun e => e.isAlive && decide ((e.x - x) ^ 2 + (e.y - y) ^ 2 ≤ r ^ 2))

/-- `Environment.nearby_resources`: same shape over the resource grid. -/
def nearbyResources (s : Sim) (x y r : ℚ) : List Resource :=
  ((gridIdsIn s.resourceGrid (cellsInRange x y r)).filterMap
    (fun id => s.resources.find? (fun res => res.id = id))).filter
    (fun res => decide ((res.x - x) ^ 2 + (res.y - y) ^ 2 ≤ r ^ 2))

/-- Python `min(xs, key=k)`: the first element attaining the minimum
key.  Returns the head-biased fold of the source's `min`. -/
def minByKey {α : Type} (key : α → ℚ) (a : α) (l : List α) : α :=
  l.foldl (fun best c => if key c < key best then c else best) a

/-- Names of the methods `class BaseEntity` actually defines
(backend/core/entity.py).  `consume_resource` is NOT among them: the
call `entity.consume_resource(...)` in `Environment.consume_resource`
raises `AttributeError`. -/
def baseEntityMethodNames : List String :=
  ["update", "move", "_receive_energy", "eat_nearby", "attack_nearby",
   "is_alive", "deactivate_trait", "activate_trait"]

/-- `BaseEntity.move`: displacement clamped to `_MAX_MOVE_PER_TICK = 20`
by rescaling through the (modelled) square root. -/
def Entity.move (e : Entity) (dx dy : ℚ) : Entity :=
  let magnitude := sqrtQ (dx * dx + dy * dy)
  let scaled :=
    if 20 < magnitude then (dx * (20 / magnitude), dy * (20 / magnitude))
    else (dx, dy)
  { e with x := e.x + scaled.1, y := e.y + scaled.2 }

/-- `BaseEntity.deactivate_trait` / the executor's failure handling:
add a class name to the deactivated set (set semantics on the list). -/
def addDeact (n : String) (e : Entity) : Entity :=
  if n ∈ e.deactivated then e else { e with deactivated := n :: e.deactivated }

/-- `BaseEntity._receive_energy` applied to the entity with this id,
with the credited amount recorded in the observation log. -/
def receiveEnergy (s : Sim) (id : String) (amount : ℚ) : Sim :=
  let s' := modifyEntity s id (fun e =>
    { e with traitGain := e.traitGain + amount,
             energy := min (e.energy + amount) e.maxEnergy })
  { s' with deliveredLog := s'.deliveredLog ++ [amount] }

/-- `Environment.consume_resource`.  If the resource is gone it returns
False.  Otherwise the source calls `entity.consume_resource(resource.amount)`
(line 244) — a method `BaseEntity` does not define (see
`baseEntityMethodNames`), so `AttributeError` is raised BEFORE the
resource-removal lines 247–248; no state changes. -/
def consumeResource (s : Sim) (resId : String) : Sim × Except PyErr Bool :=
  if (s.resources.find? (fun r => r.id = resId)).isSome then
    (s, .error (.attributeError "consume_resource"))
  else
    (s, .ok false)

/-- `BaseEntity.eat_nearby`. -/
def eatNearby (s : Sim) (selfId : String) (radius : ℚ) : Sim × Except PyErr Bool :=
  match findEntity s selfId with
  | none => (s, .ok false)
  | some e =>
    if !e.hasEnv then (s, .ok false)
    else
      match nearbyResources s e.x e.y radius with
      | [] => (s, .ok false)
      | r :: rs =>
        let closest := minByKey (fun q => (q.x - e.x) ^ 2 + (q.y - e.y) ^ 2) r rs
        consumeResource s closest.id

/-- `BaseEntity.attack_nearby`: damage the nearest living predator in
radius, marking it dead when its energy reaches 0. -/
def attackNearby (s : Sim) (selfId : String) (radius damage : ℚ) :
    Sim × Bool :=
  match findEntity s selfId with
  | none => (s, false)
  | some e =>
    if !e.hasMgr then (s, false)
    else
      let preds := (nearbyEntities s e.x e.y radius).filter
        (fun p => p.entityType = "predator" && p.isAlive && !(p.id = selfId))
      match preds with
      | [] => (s, false)
      | p :: ps =>
        let closest := minByKey (fun q => (q.x - e.x) ^ 2 + (q.y - e.y) ^ 2) p ps
        let s' := modifyEntity s closest.id (fun t =>
          let t' := { t with energy := t.energy - damage }
          if t'.energy ≤ 0 then { t' with state := "dead" } else t')
        (s', true)

/-! ## Trait execution — backend/core/traits.py

A validated trait may only touch the entity through the whitelisted
Entity API (backend/sandbox/validator.py), so a single execution is a
finite sequence of the primitive calls below; quantifying over action
lists covers every (also adaptive) trait.  `receive (q)` models the
credit `Environment.consume_resource` would make through
`BaseEntity._receive_energy`; in the current source that call never
happens (consume_resource raises first) and validated trait code cannot
reach `_receive_energy` directly (underscore attributes are banned), but
the update sandbox is specified over this delivery path, so it is kept
in the alphabet.  Reassigning `entity.id` would desynchronize the store
key from the attribute and is outside the modelled alphabet; every
modelled call preserves the id. -/
inductive TAction where
  | move (dx dy : ℚ)
  | setX (v : ℚ)
  | setY (v : ℚ)
  | setEnergy (v : ℚ)
  | setAge (v : ℕ)
  | setMaxEnergy (v : ℚ)
  | setMetabolism (v : ℚ)
  | setState (st : String)
  | eat (radius : ℚ)
  | attack (radius damage : ℚ)
  | deactivate (name : String)
  | activate (name : String)
  | receive (q : ℚ)
  deriving Repr, DecidableEq

/-- Effect of one primitive trait call on the world, acting as `selfId`.
Returns the updated world and an exception if the call raised one. -/
def applyAction (s : Sim) (selfId : String) : TAction → Sim × Option PyErr
  | .move dx dy => (modifyEntity s selfId (fun e => e.move dx dy), none)
  | .setX v => (modifyEntity s selfId (fun e => { e with x := v }), none)
  | .setY v => (modifyEntity s selfId (fun e => { e with y := v }), none)
  | .setEnergy v => (modifyEntity s selfId (fun e => { e with energy := v }), none)
  | .setAge v => (modifyEntity s selfId (fun e => { e with age := v }), none)
  | .setMaxEnergy v =>
      (modifyEntity s selfId (fun e => { e with maxEnergy := v }), none)
  | .setMetabolism v =>
      (modifyEntity s selfId (fun e => { e with metabolismRate := v }), none)
  | .setState st => (modifyEntity s selfId (fun e => { e with state := st }), none)
  | .eat radius =>
      match eatNearby s selfId radius with
      | (s', .ok _) => (s', none)
      | (s', .error err) => (s', some err)
  | .attack radius damage => ((attackNearby s selfId radius damage).1, none)
  | .deactivate name => (modifyEntity s selfId (addDeact name), none)
  | .activate name =>
      (modifyEntity s selfId (fun e =>
        { e with deactivated := e.deactivated.filter (fun n => !(n = name)) }), none)
  | .receive q => (receiveEnergy s selfId q, none)

/-- Run the actions of one trait execution in order; effects performed
before an exception persist (Python exception semantics). -/
def runActions (s : Sim) (selfId : String) :
    List TAction → Sim × Option PyErr
  | [] => (s, none)
  | a :: rest =>
    match applyAction s selfId a with
    | (s', none) => runActions s' selfId rest
    | (s', some err) => (s', some err)

/-- How one `trait.execute(entity)` call finishes: normally, by raising,
or cancelled by the `asyncio.wait_for` timeout (partial effects
persist in all three cases). -/
inductive TraitEnd where
  | ok
  | raised
  | timeout
  deriving Repr, DecidableEq

/-- One scheduled trait execution: the primitive calls it performs and
how it finishes. -/
structure TraitOutcome where
  actions : List TAction
  ending : TraitEnd
  deriving Repr, DecidableEq

/-- Environment of one tick's trait executions: `budget id i` tells
whether the wall-clock tick budget is already exceeded when trait `i` of
entity `id` comes up, `outcome id i` is what that trait's code does.
(Wall-clock time cannot be computed in the embedding; it enters as this
oracle.) -/
structure Oracle where
  budget : String → ℕ → Bool
  outcome : String → ℕ → TraitOutcome

/-- The oracle for worlds whose entities have no traits. -/
def oracleNil : Oracle where
  budget := fun _ _ => false
  outcome := fun _ _ => { actions := [], ending := .ok }

/-- Engine callback `CoreEngine._on_trait_error`: deduplicates by trait
name and publishes one feed message for a new name.  (The feed message
content is abstracted to the trait name; `callbackLog` is an observation
log that records the invocation itself, before deduplication.) -/
def onTraitError (s : Sim) (traitName : String) : Sim :=
  if traitName ∈ s.reported then
    { s with callbackLog := s.callbackLog ++ [traitName] }
  else
    { s with callbackLog := s.callbackLog ++ [traitName],
             reported := traitName :: s.reported,
             feed := s.feed ++ [traitName] }

/-- `TraitExecutor.execute_trait`: run one trait, catch timeout
(warning only) and exceptions (first-error callback), return success.
The callback fires exactly on exceptions, not on timeouts. -/
def executeOneTrait (s : Sim) (selfId : String) (name : String)
    (outcome : TraitOutcome) : Sim × Bool :=
  match runActions s selfId outcome.actions with
  | (s', some _) => (onTraitError s' name, false)
  | (s', none) =>
    match outcome.ending with
    | .ok => (s', true)
    | .raised => (onTraitError s' name, false)
    | .timeout => (s', false)

/-- Loop body of `TraitExecutor.execute_traits` over the trait list read
at entry, carrying the index used for budget/outcome lookup.  Returns
the world plus the log of class names actually executed (not skipped,
not cut off by the budget). -/
def execTraitsAux (o : Oracle) (selfId : String) :
    List TraitInst → ℕ → Sim → Sim × List String
  | [], _, s => (s, [])
  | t :: rest, i, s =>
    if o.budget selfId i then (s, [])
    else
      let deact := ((findEntity s selfId).map Entity.deactivated).getD []
      if t.className ∈ deact then execTraitsAux o selfId rest (i + 1) s
      else
        let (s1, success) := executeOneTrait s selfId t.className (o.outcome selfId i)
        let s2 :=
          if success then s1
          else modifyEntity s1 selfId (addDeact t.className)
        let (s3, log) := execTraitsAux o selfId rest (i + 1) s2
        (s3, t.className :: log)

/-- `TraitExecutor.execute_traits`. -/
def executeTraits (s : Sim) (selfId : String) (o : Oracle) : Sim × List String :=
  let ts := ((findEntity s selfId).map Entity.traits).getD []
  if ts.isEmpty then (s, [])
  else execTraitsAux o selfId ts 0 s

/-- The world after one non-skipped loop iteration of `execute_traits`
(run the trait, deactivate on failure). -/
def execStepState (o : Oracle) (id : String) (t : TraitInst) (i : ℕ)
    (s : Sim) : Sim :=
  let pr := executeOneTrait s id t.className (o.outcome id i)
  if pr.2 then pr.1 else modifyEntity pr.1 id (addDeact t.className)

/-- `BaseEntity.update` (backend/core/entity.py lines 67–110): age,
max-age kill, metabolism and infection drain, then the trait sandbox —
snapshot age/energy/metabolism, run traits, restore age and metabolism,
set energy to `min(snapshot + _trait_energy_gain, max_energy)`, and mark
dead at energy ≤ 0. -/
def baseUpdate (s : Sim) (id : String) (o : Oracle) : Sim :=
  let s1 := modifyEntity s id (fun e => { e with age := e.age + 1 })
  let s2 := modifyEntity s1 id (fun e =>
    if 0 < e.maxAge ∧ e.maxAge ≤ e.age then { e with state := "dead" } else e)
  let s3 := modifyEntity s2 id (fun e =>
    { e with energy := e.energy - e.metabolismRate })
  let s4 := modifyEntity s3 id (fun e =>
    if e.infected then { e with energy := e.energy - 2 } else e)
  match findEntity s4 id with
  | none => s4
  | some snap =>
    let s5 := modifyEntity s4 id (fun e => { e with traitGain := 0 })
    let s6 := (executeTraits s5 id o).1
    let s7 := modifyEntity s6 id (fun e =>
      { e with age := snap.age,
               energy := min (snap.energy + e.traitGain) e.maxEnergy,
               metabolismRate := snap.metabolismRate })
    modifyEntity s7 id (fun e =>
      if e.energy ≤ 0 then { e with state := "dead" } else e)

/-- Stages 1–4 of `BaseEntity.update` (age increment, max-age kill,
metabolism drain, infection drain) — the prefix of `baseUpdate` before
the pre-trait snapshot is taken. -/
def stage4 (s : Sim) (id : String) : Sim :=
  modifyEntity (modifyEntity (modifyEntity (modifyEntity s id
    (fun e => { e with age := e.age + 1 })) id
    (fun e => if 0 < e.maxAge ∧ e.maxAge ≤ e.age then { e with state := "dead" } else e)) id
    (fun e => { e with energy := e.energy - e.metabolismRate })) id
    (fun e => if e.infected then { e with energy := e.energy - 2 } else e)

/-- `PredatorEntity.update` (backend/core/predator.py): age, metabolism,
max-age and starvation checks; no traits. -/
def predatorUpdate (s : Sim) (id : String) : Sim :=
  let s1 := modifyEntity s id (fun e =>
    { e with age := e.age + 1, energy := e.energy - e.metabolismRate })
  let s2 := modifyEntity s1 id (fun e =>
    if 0 < e.maxAge ∧ e.maxAge ≤ e.age then { e with state := "dead" } else e)
  modifyEntity s2 id (fun e =>
    if e.energy ≤ 0 then { e with state := "dead" } else e)

/-- Virtual dispatch of `entity.update(...)`. -/
def updateEntity (s : Sim) (id : String) (o : Oracle) : Sim :=
  match findEntity s id with
  | none => s
  | some e =>
    match e.cls with
    | .base => baseUpdate s id o
    | .predator => predatorUpdate s id

/-- `CoreEngine._update_entities`: snapshot the alive list, then update
each listed entity (the source wraps each update in try/except; in this
model `update` never raises because the executor consumes all trait
errors, as in the source). -/
def updateEntitiesStage (s : Sim) (o : Oracle) : Sim :=
  let ids := (s.entities.filter Entity.isAlive).map Entity.id
  ids.foldl (fun acc id => updateEntity acc id o) s

/-! ## Physics — backend/core/world_physics.py -/

/-- The x-clamp block of `WorldPhysics.apply_bounds` in bounce mode. -/
def xClampB (w : ℚ) (e : Entity) : Entity :=
  if e.x - e.radius < 0 then { e with x := e.radius }
  else if w < e.x + e.radius then { e with x := w - e.radius }
  else e

/-- The y-clamp block of `WorldPhysics.apply_bounds` in bounce mode. -/
def yClampB (h : ℚ) (e : Entity) : Entity :=
  if e.y - e.radius < 0 then { e with y := e.radius }
  else if h < e.y + e.radius then { e with y := h - e.radius }
  else e

/-- `WorldPhysics.apply_bounds` on one entity.  Entities carry no
velocity attributes (`hasattr` is false), so only positions change. -/
def applyBoundsE (w h : ℚ) (mode : BMode) (e : Entity) : Entity :=
  match mode with
  | .bounce => yClampB h (xClampB w e)
  | .wrap =>
    let e1 :=
      if e.x < 0 then { e with x := w }
      else if w < e.x then { e with x := 0 }
      else e
    if e1.y < 0 then { e1 with y := h }
    else if h < e1.y then { e1 with y := 0 }
    else e1

/-- `EntityManager.rebuild_spatial_grid`: clear and re-add every living
entity under the cell of its current position. -/
def rebuildGrid (s : Sim) : Sim :=
  { s with entityGrid := (s.entities.filter Entity.isAlive).map (fun e =>
      ((cellOf e.x e.y).1, (cellOf e.x e.y).2, e.id)) }

/-- Code-point lexicographic string order (Python string comparison). -/
def charListLe : List Char → List Char → Bool
  | [], _ => true
  | _ :: _, [] => false
  | a :: as, b :: bs =>
    if a.toNat < b.toNat then true
    else if b.toNat < a.toNat then false
    else charListLe as bs

/-- `sorted([id1, id2])` used for the checked-pairs set. -/
def sortPair (a b : String) : String × String :=
  if charListLe a.data b.data then (a, b) else (b, a)

/-- `EntityManager.detect_collisions`: for each living entity, scan its
grid neighbourhood (radius 3·r), dedup pairs through the sorted-id
check-set, and emit pairs strictly closer than the radius sum. -/
def collisionPairs (s : Sim) : List (String × String) :=
  (s.entities.foldl (fun acc e =>
    if !e.isAlive then acc
    else
      (nearbyEntities s e.x e.y (e.radius * 3)).foldl (fun acc2 other =>
        if other.id = e.id then acc2
        else
          let pair := sortPair e.id other.id
          if pair ∈ acc2.1 then acc2
          else
            let dist := sqrtQ ((e.x - other.x) ^ 2 + (e.y - other.y) ^ 2)
            if dist < e.radius + other.radius then
              (pair :: acc2.1, acc2.2 ++ [(e.id, other.id)])
            else (pair :: acc2.1, acc2.2)) acc)
    (([], []) : List (String × String) × List (String × String))).2

/-- `WorldPhysics.resolve_collision`: push the two entities apart by
half the overlap plus a 0.1 buffer along the centre normal (the
velocity impulse branch is dead: entities have no `vx`/`vy`). -/
def resolveCollision (s : Sim) (ida idb : String) : Sim :=
  match findEntity s ida, findEntity s idb with
  | some a, some b =>
    let dx := b.x - a.x
    let dy := b.y - a.y
    let distance0 := sqrtQ (dx * dx + dy * dy)
    let distance := if distance0 < 1 / 1000 then 1 / 1000 else distance0
    let nx := dx / distance
    let ny := dy / distance
    let overlap := a.radius + b.radius - distance
    if 0 < overlap then
      let sep := overlap / 2 + 1 / 10
      let s1 := modifyEntity s ida (fun e =>
        { e with x := e.x - nx * sep, y := e.y - ny * sep })
      modifyEntity s1 idb (fun e =>
        { e with x := e.x + nx * sep, y := e.y + ny * sep })
    else s
  | _, _ => s

/-- `CoreEngine._apply_physics`: clamp every living entity to bounds,
rebuild the grid, then resolve the detected pairs in order.  Collision
resolution runs AFTER the bounds pass and can move entities back out of
bounds. -/
def applyPhysicsStage (s : Sim) : Sim :=
  let aliveIds := (s.entities.filter Entity.isAlive).map Entity.id
  let s1 := aliveIds.foldl (fun acc id =>
    modifyEntity acc id
      (applyBoundsE acc.settings.worldWidth acc.settings.worldHeight
        acc.boundaryMode)) s
  let s2 := rebuildGrid s1
  (collisionPairs s2).foldl (fun acc p => resolveCollision acc p.1 p.2) s2

/-! ## Lifecycle stages — backend/core/engine.py -/

/-- `CoreEngine._handle_deaths`: remove every non-alive entity from the
store and from the grid cell of its current position.  (The death-cause
counters are telemetry only and not modelled.) -/
def handleDeathsStage (s : Sim) : Sim :=
  let dead := s.entities.filter (fun e => !e.isAlive)
  let grid' := dead.foldl (fun g e =>
    g.filter (fun ent =>
      !(((ent.1, ent.2.1) = cellOf e.x e.y) && ent.2.2 = e.id))) s.entityGrid
  { s with entities := s.entities.filter Entity.isAlive, entityGrid := grid' }

/-- `CoreEngine._handle_predators` (engine.py lines 599–657).  After the
pure molbot/predator counts, line 616 evaluates
`self.settings.predator_spawn_threshold`; `Settings` (backend/config.py)
declares no such field, so the attribute read raises `AttributeError`
before any state is mutated. -/
def handlePredatorsStage (_ : Sim) : Except PyErr Sim :=
  .error (.attributeError "predator_spawn_threshold")

/-- `CoreEngine._handle_virus` (engine.py lines 659–708).  The virus is
initially dormant, and the dormant branch immediately evaluates
`self.settings.virus_spawn_threshold`, another field `Settings` does not
declare: `AttributeError` before any mutation. -/
def handleVirusStage (_ : Sim) : Except PyErr Sim :=
  .error (.attributeError "virus_spawn_threshold")

/-- A registry value: a loaded trait class, identified by its
`__name__`. -/
structure TraitClass where
  className : String
  deriving Repr, DecidableEq

/-- Association-list write with dict overwrite semantics. -/
def assocSet (m : List (String × ℕ)) (k : String) (v : ℕ) : List (String × ℕ) :=
  m.filter (fun p => !(p.1 = k)) ++ [(k, v)]

/-- One registry entry of the per-entity upgrade loop in
`CoreEngine._apply_new_registry_traits`: replace in place on a family
match, otherwise append while under `max_active_traits`. -/
def regUpgradeStep (maxActive : ℕ) (canonMap : List (String × ℕ))
    (ts : List TraitInst) (p : String × TraitClass) : List TraitInst :=
  match canonMap.find? (fun q => q.1 = p.1) with
  | some q => ts.set q.2 (TraitInst.mk p.2.className)
  | none =>
    if ts.length < maxActive then ts ++ [TraitInst.mk p.2.className] else ts

/-- Per-entity body of `CoreEngine._apply_new_registry_traits`: build
the canonical-family → index map of the current trait list once, then
run the upgrade loop over the snapshot. -/
def applyRegistryToEntity (maxActive : ℕ) (snapshot : List (String × TraitClass))
    (e : Entity) : Entity :=
  let canonMap := e.traits.enum.foldl (fun m p =>
    assocSet m (canonicalName p.2.className) p.1) []
  { e with traits := snapshot.foldl (regUpgradeStep maxActive canonMap) e.traits }

/-- `CoreEngine._apply_new_registry_traits`: skip when the registry
version did not change, else upgrade every living entity. -/
def applyNewRegistryTraitsStage (s : Sim)
    (snapshot : List (String × TraitClass)) (registryChanged : Bool) : Sim :=
  if !registryChanged then s
  else
    { s with entities := s.entities.map (fun e =>
        if e.isAlive then
          applyRegistryToEntity s.settings.maxActiveTraits snapshot e
        else e) }

/-- `len([e for e in entities if e.is_alive()])`. -/
def countAlive (s : Sim) : ℕ := (s.entities.filter Entity.isAlive).length

/-- `EntityManager.spawn` with the engine's post-spawn back-reference
assignment (engine.py lines 314–322): a fresh molbot with the given
trait instances, added to the store and the grid.  (The DNA hash and
colour are presentational and not modelled.) -/
def spawnEntity (s : Sim) (id : String) (x y : ℚ) (traits : List TraitInst)
    (initialEnergy : ℚ) : Sim :=
  let e : Entity :=
    { id := id, x := x, y := y, energy := initialEnergy, maxEnergy := 100,
      radius := 10, age := 0, maxAge := 0, state := "alive",
      entityType := "molbot", infected := false, infectionTimer := 0,
      traits := traits, deactivated := [], metabolismRate := 1,
      traitGain := 0, hasEnv := true, hasMgr := true, cls := .base }
  { s with entities := s.entities ++ [e],
           entityGrid := s.entityGrid ++
             [((cellOf x y).1, (cellOf x y).2, id)] }

/-- Spawn loop of `_handle_spawning`: up to `n` spawns, re-checking the
population cap before each, consuming one (id, x, y) random draw per
spawn.  Every spawn attaches one instance of EVERY class in the
registry snapshot — no cap is applied. -/
def spawnLoop (snapshot : List (String × TraitClass)) :
    List (String × ℚ × ℚ) → ℕ → Sim → Sim
  | _, 0, s => s
  | [], _ + 1, s => s
  | inp :: rest, n + 1, s =>
    if s.settings.maxEntities ≤ countAlive s then s
    else
      let traits := snapshot.map (fun p => TraitInst.mk p.2.className)
      spawnLoop snapshot rest n
        (spawnEntity s inp.1 inp.2.1 inp.2.2 traits 100)

/-- `CoreEngine._handle_spawning` (engine.py lines 273–334): refill up
to a batch of 2 below `min_population`, organic growth on high average
energy otherwise. -/
def handleSpawningStage (s : Sim) (snapshot : List (String × TraitClass))
    (spawnInputs : List (String × ℚ × ℚ)) : Sim :=
  let current := countAlive s
  let alive := s.entities.filter Entity.isAlive
  let avgPct : ℚ :=
    if alive.length = 0 then 0
    else ((alive.map (fun e => e.energy / e.maxEnergy)).sum /
      (alive.length : ℚ)) * 100
  let toSpawn :=
    if current < s.settings.minPopulation then
      min (s.settings.minPopulation - current) 2
    else if current < s.settings.maxEntities then
      (if 85 ≤ avgPct then 2 else if 70 ≤ avgPct then 1 else 0)
    else 0
  spawnLoop snapshot spawnInputs toSpawn s

/-- `CoreEngine._respawn_resources` reads `self.settings.spawn_rate`
(engine.py line 342), a field `Settings` does not declare:
`AttributeError`. -/
def respawnResourcesStage (_ : Sim) : Except PyErr Sim :=
  .error (.attributeError "spawn_rate")

/-- Non-oracle inputs of one tick: the trait-execution oracle, the
registry snapshot with its changed flag, and the random draws the
spawning stage would consume. -/
structure TickInput where
  oracle : Oracle
  snapshot : List (String × TraitClass)
  registryChanged : Bool
  spawnInputs : List (String × ℚ × ℚ)

/-- Tick inputs for a world with no traits and an unchanged registry. -/
def tickInputNil : TickInput where
  oracle := oracleNil
  snapshot := []
  registryChanged := false
  spawnInputs := []

/-- One iteration of `CoreEngine.run`'s while-loop body: the stages in
source order inside a single try/except.  A raising stage ends the
tick's stage sequence — state mutated before the raise persists, the
exception is caught and logged, the loop continues.  (Broadcast,
statistics, telemetry and checkpointing only perform I/O on fields
outside this model.) -/
def tick (s : Sim) (tin : TickInput) : Sim × Option PyErr :=
  let s1 := updateEntitiesStage s tin.oracle
  let s2 := applyPhysicsStage s1
  let s3 := handleDeathsStage s2
  match handlePredatorsStage s3 with
  | .error err => (s3, some err)
  | .ok s4 =>
    match handleVirusStage s4 with
    | .error err => (s4, some err)
    | .ok s5 =>
      let s6 := applyNewRegistryTraitsStage s5 tin.snapshot tin.registryChanged
      let s7 := handleSpawningStage s6 tin.snapshot tin.spawnInputs
      match respawnResourcesStage s7 with
      | .error err => (s7, some err)
      | .ok s8 => (s8, none)

/-! ## Dynamic registry with aliasing — backend/core/dynamic_registry.py

To make snapshot stability non-vacuous, Python dict objects are
modelled on an explicit heap: `objs` maps object ids to dict contents,
`cur` is the object `self._traits` points to.  `register`/`unregister`
build a COPY and swap the pointer (the source's atomic dict
replacement); `get_snapshot` allocates a copy and hands out its id.
Family-file retention, source storage and the usage counter do not touch
`_traits` and are not modelled. -/

structure RegHeap where
  objs : List (ℕ × List (String × TraitClass))
  next : ℕ
  cur : ℕ
  version : ℕ
  deriving Repr, DecidableEq

/-- Dereference a dict object id. -/
def heapGet (h : RegHeap) (oid : ℕ) : Option (List (String × TraitClass)) :=
  (h.objs.find? (fun p => p.1 = oid)).map Prod.snd

/-- Dict copy-with-write (`new_traits = self._traits.copy();
new_traits[canon] = cls`). -/
def dictSetTC (m : List (String × TraitClass)) (k : String) (v : TraitClass) :
    List (String × TraitClass) :=
  if (m.find? (fun p => p.1 = k)).isSome then
    m.map (fun p => if p.1 = k then (p.1, v) else p)
  else m ++ [(k, v)]

/-- `DynamicRegistry.register`: canonicalize the key, allocate the
written copy, swap the pointer, bump the version counter. -/
def regRegister (h : RegHeap) (name : String) (cls : TraitClass) : RegHeap :=
  let contents := (heapGet h h.cur).getD []
  let newContents := dictSetTC contents (canonicalName name) cls
  { objs := (h.next, newContents) :: h.objs, next := h.next + 1,
    cur := h.next, version := h.version + 1 }

/-- `DynamicRegistry.unregister`: no-op (returning False) when the
canonical key is absent, else allocate the deleted copy and swap. -/
def regUnregister (h : RegHeap) (name : String) : RegHeap :=
  if ((((heapGet h h.cur).getD []).find?
      (fun p => p.1 = canonicalName name)).isSome) then
    { objs := (h.next, ((heapGet h h.cur).getD []).filter
        (fun p => !(p.1 = canonicalName name))) :: h.objs,
      next := h.next + 1, cur := h.next, version := h.version + 1 }
  else h

/-- `DynamicRegistry.get_snapshot`: allocate a copy of the current dict
and return its object id; the pointer and version are untouched. -/
def regGetSnapshot (h : RegHeap) : RegHeap × ℕ :=
  let contents := (heapGet h h.cur).getD []
  ({ h with objs := (h.next, contents) :: h.objs, next := h.next + 1 }, h.next)

/-- A registry write operation. -/
inductive RegOp where
  | reg (name : String) (cls : TraitClass)
  | unreg (name : String)
  deriving Repr, DecidableEq

/-- Apply one write. -/
def applyRegOp (h : RegHeap) : RegOp → RegHeap
  | .reg name cls => regRegister h name cls
  | .unreg name => regUnregister h name

/-- Apply a sequence of writes. -/
def applyRegOps (ops : List RegOp) (h : RegHeap) : RegHeap :=
  ops.foldl applyRegOp h

/-- Heap well-formedness: allocated ids are below the allocation
counter.  Holds for the empty registry and is preserved by every
operation. -/
def RegWF (h : RegHeap) : Prop := ∀ p ∈ h.objs, p.1 < h.next

/-! ## The mutation-rollback path — backend/sandbox/patcher.py,
backend/agents/mutation_gatekeeper.py, backend/agents/watcher.py -/

/-- Event-bus channels (backend/bus/channels.py). -/
inductive Channel where
  | mutationReady
  | mutationApplied
  | mutationFailed
  | mutationRollback
  | feedChannel
  | telemetry
  deriving Repr, DecidableEq

/-- The channels `RuntimePatcher.run` subscribes to (patcher.py lines
60–67): exactly `MUTATION_READY`.  There is no rollback subscription
anywhere in the patcher. -/
def patcherSubscribedChannels : List Channel := [.mutationReady]

/-- The channels `MutationGatekeeper.run` subscribes to
(mutation_gatekeeper.py lines 113–115). -/
def gatekeeperSubscribedChannels : List Channel :=
  [.mutationApplied, .mutationFailed, .mutationRollback]

/-- The out-of-core state the rollback path can touch: registered trait
families, trait files on disk, mutation records (id → status), their
agents, per-agent active counters and the feed. -/
structure PipeState where
  registryFamilies : List String
  traitFiles : List String
  records : List (String × String)
  agentOf : List (String × String)
  active : List (String × Int)
  feedMessages : List String
  deriving Repr, DecidableEq

/-- `MutationGatekeeper._decrement_active`: DECR, floored at 0. -/
def decrActive (m : List (String × Int)) (aid : String) : List (String × Int) :=
  m.map (fun p =>
    if p.1 = aid then (p.1, if p.2 - 1 < 0 then 0 else p.2 - 1) else p)

/-- `MutationGatekeeper._handle_rollback` (mutation_gatekeeper.py lines
279–294): when the mutation record exists, set its status to
`rolled_back` and decrement the agent's active counter.  Nothing
else. -/
def gatekeeperHandleRollback (s : PipeState) (mid : String) : PipeState :=
  if (s.records.find? (fun p => p.1 = mid)).isSome then
    let newRecords := s.records.map (fun p : String × String =>
      if p.1 = mid then (p.1, "rolled_back") else p)
    let s1 := { s with records := newRecords }
    match s1.agentOf.find? (fun p => p.1 = mid) with
    | some a => { s1 with active := decrActive s1.active a.2 }
    | none => s1
  else s

/-- Delivery of one `MUTATION_ROLLBACK` event (published by
`Watcher._evaluate_fitness`): every subscriber of the channel handles
it.  The gatekeeper is the only subscriber — the patcher is not
(`patcherSubscribedChannels`). -/
def deliverMutationRollback (s : PipeState) (mid : String) : PipeState :=
  gatekeeperHandleRollback s mid

/-! ## Tick-loop control flow — backend/core/engine.py, `CoreEngine.run`

The loop body wraps ALL stages of a tick in one try/except.  For the
control-flow claim the stages are abstracted as fallible state
transformers run in order. -/

/-- Run stages in order, stopping at the first raising stage; the
exception is returned as caught (never propagated), together with the
state reached so far. -/
def runStages {W E : Type} : List (W → Except E W) → W → W × Option E
  | [], w => (w, none)
  | f :: rest, w =>
    match f w with
    | .ok w' => runStages rest w'
    | .error e => (w, some e)

/-- The while-loop of `CoreEngine.run`: `tick_counter += 1` happens
before the try, the stage sequence runs inside it, and the caught
exception never ends the loop. -/
def runLoop {W E : Type} : List (List (W → Except E W)) → W × ℕ → W × ℕ
  | [], p => p
  | ss :: rest, (w, c) => runLoop rest ((runStages ss w).1, c + 1)

/-! ## Concrete worlds used as counterexamples and witnesses -/

/-- A healthy default molbot at (10, 100). -/
def exEntA : Entity where
  id := "A"
  x := 10
  y := 100
  energy := 100
  maxEnergy := 100
  radius := 10
  age := 0
  maxAge := 0
  state := "alive"
  entityType := "molbot"
  infected := false
  infectionTimer := 0
  traits := []
  deactivated := []
  metabolismRate := 1
  traitGain := 0
  hasEnv := true
  hasMgr := true
  cls := .base

/-- A second molbot overlapping `exEntA` (distance 0.1 ≪ radius sum 20),
still inside world bounds. -/
def exEntB : Entity := { exEntA with id := "B", x := 101 / 10 }

/-- Two overlapping molbots near the left wall, grids in sync, default
settings, bounce mode: collision separation will push A past x = 0. -/
def exSimC2 : Sim where
  entities := [exEntA, exEntB]
  entityGrid := [(0, 2, "A"), (0, 2, "B")]
  resources := []
  resourceGrid := []
  reported := []
  feed := []
  deliveredLog := []
  callbackLog := []
  settings := defaultSettings
  boundaryMode := .bounce

/-- A molbot at the origin with one trait, environment reference set. -/
def exEntE : Entity :=
  { exEntA with
    id := "E"
    x := 0
    y := 0
    energy := 50
    traits := [TraitInst.mk "FoodTrait"] }

/-- A world with one entity and one food resource 10 px away: food is
within every radius ≥ 10. -/
def exSimE : Sim where
  entities := [exEntE]
  entityGrid := [(0, 0, "E")]
  resources := [{ id := "R", x := 10, y := 0, amount := 50 }]
  resourceGrid := [(0, 0, "R")]
  reported := []
  feed := []
  deliveredLog := []
  callbackLog := []
  settings := defaultSettings
  boundaryMode := .bounce

/-- Oracle whose single trait execution receives one legitimate energy
delivery of 10 and finishes normally. -/
def exOracleRecv : Oracle where
  budget := fun _ _ => false
  outcome := fun _ _ => { actions := [.receive 10], ending := .ok }

/-- Oracle whose every trait execution performs nothing and times
out. -/
def exOracleTimeout : Oracle where
  budget := fun _ _ => false
  outcome := fun _ _ => { actions := [], ending := .timeout }

/-- Oracle whose every trait execution performs nothing and raises. -/
def exOracleRaise : Oracle where
  budget := fun _ _ => false
  outcome := fun _ _ => { actions := [], ending := .raised }

/-- An entity holding one `ResourceDiversifierTrait` instance (class
name ≠ canonical name). -/
def exEntT : Entity :=
  { exEntA with id := "T", traits := [TraitInst.mk "ResourceDiversifierTrait"] }

/-- World for the trait-failure scenarios. -/
def exSimT : Sim := { exSimC2 with entities := [exEntT], entityGrid := [(0, 2, "T")] }

/-- An entity holding one `EnergySaverTrait` instance that is already
deactivated. -/
def exEntD : Entity :=
  { exEntA with id := "D", traits := [TraitInst.mk "EnergySaverTrait"],
                deactivated := ["EnergySaverTrait"] }

/-- World for the deactivation-persistence scenario. -/
def exSimD : Sim := { exSimC2 with entities := [exEntD], entityGrid := [(0, 2, "D")] }

/-- A registry snapshot carrying an upgraded `energy_saver` family whose
class keeps the name `EnergySaverTrait`. -/
def exSnapD : List (String × TraitClass) :=
  [("energy_saver", TraitClass.mk "EnergySaverTrait")]

/-- A registry snapshot with 31 distinct trait families — one more than
`max_active_traits` = 30. -/
def exSnap31 : List (String × TraitClass) :=
  (List.range 31).map (fun i => (Nat.repr i, TraitClass.mk (Nat.repr i)))

/-- An empty world (population 0 < min_population). -/
def exSimEmpty : Sim where
  entities := []
  entityGrid := []
  resources := []
  resourceGrid := []
  reported := []
  feed := []
  deliveredLog := []
  callbackLog := []
  settings := defaultSettings
  boundaryMode := .bounce

/-- Pipeline state with one activated mutation whose family
`energy_saver` is registered with one live file. -/
def exPipe : PipeState where
  registryFamilies := ["energy_saver"]
  traitFiles := ["trait_energy_saver_v1.py"]
  records := [("m1", "activated")]
  agentOf := [("m1", "agent7")]
  active := [("agent7", 3)]
  feedMessages := []

/-- Failing first stage for the tick control-flow counterexample. -/
def exFailStage : ℕ → Except PyErr ℕ := fun _ => .error (.attributeError "boom")

/-- A second stage whose effect (increment) is observable. -/
def exNextStage : ℕ → Except PyErr ℕ := fun n => .ok (n + 1)

/-- Pointwise energy invariant: an alive entity has positive energy. -/
def PosE (e : Entity) : Prop := e.state = "alive" → 0 < e.energy

/-- World energy invariant (the energy half of the §8 invariant). -/
def AliveEnergyPos (s : Sim) : Prop := ∀ e ∈ s.entities, PosE e

/-- The energy invariant holds for every entity other than the one
currently being updated (whose own violation the end-of-update death
check repairs). -/
def PosEAllBut (s : Sim) (id : String) : Prop :=
  ∀ e ∈ s.entities, e.id ≠ id → PosE e

/-- Every entity of `s₂` keeps the state and energy of some entity of
`s₁` (holds for the position-only and removal-only stages). -/
def StEn (s₁ s₂ : Sim) : Prop :=
  ∀ e' ∈ s₂.entities, ∃ e ∈ s₁.entities, e'.state = e.state ∧ e'.energy = e.energy

/-- Every energy amount the oracle delivers through `_receive_energy`
is nonnegative (the environment only ever delivers `resource.amount` ≥ 0). -/
def OracleNonneg (o : Oracle) : Prop :=
  ∀ id i q, TAction.receive q ∈ (o.outcome id i).actions → 0 ≤ q

/-- The oracle never calls `activate_trait` for this name. -/
def NoActivate (o : Oracle) (name : String) : Prop :=
  ∀ id i, TAction.activate name ∉ (o.outcome id i).actions

/-- The deactivated set of the entity with this id. -/
def deactOf (s : Sim) (id : String) : List String :=
  ((findEntity s id).map Entity.deactivated).getD []

/-- `_trait_energy_gain` of the entity with this id (0 when absent). -/
def traitGainOf (s : Sim) (id : String) : ℚ :=
  ((findEntity s id).map Entity.traitGain).getD 0

/-- Feed deduplication invariant: at most one trait-error feed entry per
name, and every feed entry has been recorded in the dedup set. -/
def FeedInv (s : Sim) : Prop :=
  ∀ n : String, s.feed.count n ≤ 1 ∧ (n ∈ s.feed → n ∈ s.reported)

/-- Every outcome of the oracle performs no calls and times out. -/
def OracleTimeoutsOnly (o : Oracle) : Prop :=
  ∀ id i, o.outcome id i = { actions := [], ending := .timeout }

/-- The tick budget never cuts the trait loop short. -/
def BudgetFree (o : Oracle) : Prop := ∀ id i, o.budget id i = false

/-! # Theorems -/

/-! ### C9 — normalization idempotence -/

theorem isUpA_toLowerA (c : Char) : isUpA (toLowerA c) = false := by
  unfold toLowerA
  by_cases h : isUpA c = true
  · rw [if_pos h]
    unfold isUpA at h
    have h2 : 65 ≤ c.toNat ∧ c.toNat ≤ 90 := of_decide_eq_true h
    obtain ⟨h65, h90⟩ := h2
    set n := c.toNat with hn
    interval_cases n <;> decide
  · rw [if_neg h]
    exact eq_false_of_ne_true h

theorem noUp_map_toLowerA (l : List Char) : NoUp (l.map toLowerA) := by
  intro c hc
  obtain ⟨a, _, rfl⟩ := List.mem_map.mp hc
  exact isUpA_toLowerA a

theorem noUp_dropWhile (p : Char → Bool) (l : List Char) (h : NoUp l) :
    NoUp (l.dropWhile p) := by
  intro c hc
  exact h c ((List.dropWhile_sublist p).mem hc)

theorem noUp_reverse (l : List Char) (h : NoUp l) : NoUp l.reverse := by
  intro c hc
  exact h c (List.mem_reverse.mp hc)

theorem noUp_stripUnder (l : List Char) (h : NoUp l) : NoUp (stripUnder l) := by
  unfold stripUnder
  exact noUp_reverse _ (noUp_dropWhile _ _ (noUp_reverse _ (noUp_dropWhile _ _ h)))

theorem stripT_of_noUp (l : List Char) (h : NoUp l) : stripT l = l := by
  unfold stripT
  rw [if_neg]
  intro hsuf
  unfold hasSuffixT at hsuf
  have heq : l.reverse.take 5 = ['t', 'i', 'a', 'r', 'T'] := of_decide_eq_true hsuf
  have hT : 'T' ∈ l.reverse.take 5 := by rw [heq]; simp
  have hT2 : 'T' ∈ l := List.mem_reverse.mp (List.mem_of_mem_take hT)
  have := h 'T' hT2
  simp [isUpA] at this

theorem ins1_of_noUp (l : List Char) (h : NoUp l) : ins1 l = l := by
  induction l with
  | nil => rfl
  | cons a rest ih =>
    have ha : isUpA a = false := h a (List.mem_cons_self a rest)
    have hrest : NoUp rest := fun c hc => h c (List.mem_cons_of_mem a hc)
    unfold ins1
    have hneed : needUnder1 a rest = false := by
      unfold needUnder1
      match rest with
      | [] => rfl
      | [b] => rfl
      | b :: c :: t => simp [ha]
    rw [hneed, ih hrest]
    simp

theorem ins2_of_noUp (l : List Char) (h : NoUp l) : ins2 l = l := by
  induction l with
  | nil => rfl
  | cons a rest ih =>
    have hrest : NoUp rest := fun c hc => h c (List.mem_cons_of_mem a hc)
    unfold ins2
    have hneed : needUnder2 a rest = false := by
      unfold needUnder2
      match rest with
      | [] => rfl
      | b :: t =>
        have hb : isUpA b = false := hrest b (List.mem_cons_self b t)
        simp [hb]
    rw [hneed, ih hrest]
    simp

theorem map_toLowerA_of_noUp (l : List Char) (h : NoUp l) :
    l.map toLowerA = l := by
  induction l with
  | nil => rfl
  | cons a rest ih =>
    have ha : isUpA a = false := h a (List.mem_cons_self a rest)
    have hrest : NoUp rest := fun c hc => h c (List.mem_cons_of_mem a hc)
    simp only [List.map_cons, ih hrest, List.cons.injEq, and_true]
    unfold toLowerA
    rw [if_neg (by rw [ha]; exact Bool.false_ne_true)]

/-- The head of `dropWhile p l` fails `p` (when nonempty). -/
theorem dropWhile_head_false (p : Char → Bool) (l : List Char) :
    ∀ c cs, l.dropWhile p = c :: cs → p c = false := by
  induction l with
  | nil => intro c cs h; simp at h
  | cons a rest ih =>
    intro c cs h
    rw [List.dropWhile_cons] at h
    by_cases hp : p a = true
    · rw [if_pos hp] at h
      exact ih c cs h
    · rw [if_neg hp] at h
      obtain ⟨rfl, _⟩ := List.cons.injEq .. |>.mp h
      exact eq_false_of_ne_true hp

theorem dropWhile_dropWhile (p : Char → Bool) (l : List Char) :
    (l.dropWhile p).dropWhile p = l.dropWhile p := by
  cases hd : l.dropWhile p with
  | nil => rfl
  | cons c cs =>
    rw [List.dropWhile_cons, if_neg]
    rw [dropWhile_head_false p l c cs hd]
    exact Bool.false_ne_true

/-- Dropping from the back commutes with a front prefix that survives:
`stripUnder` is idempotent. -/
theorem stripUnder_idem (l : List Char) :
    stripUnder (stripUnder l) = stripUnder l := by
  unfold stripUnder
  set p : Char → Bool := fun c => decide (c = '_') with hp
  -- Let y be the front-stripped list and z the fully stripped list.
  set y : List Char := l.dropWhile p with hy
  set w : List Char := y.reverse.dropWhile p with hw
  -- Goal about stripUnder (w.reverse).
  -- Step 1: dropWhile p (w.reverse) = w.reverse, because the head of
  -- w.reverse (if any) is the head of y, which fails p.
  have h1 : (w.reverse).dropWhile p = w.reverse := by
    cases hyd : y with
    | nil => simp [hw, hyd]
    | cons c cs =>
      have hc : p c = false := dropWhile_head_false p l c cs (hy ▸ hyd)
      -- w is a suffix-trimmed y, i.e. w.reverse is a prefix of y.
      -- w.reverse = [] or starts with c.
      have hsub : w.reverse <+: y := by
        have h0 : w <:+ y.reverse := List.dropWhile_suffix p
        have h1 : (w.reverse).reverse <:+ y.reverse := by simpa using h0
        exact List.reverse_suffix.mp h1
      cases hwr : w.reverse with
      | nil => simp
      | cons d ds =>
        have : d = c := by
          obtain ⟨t, ht⟩ := hsub
          rw [hwr, hyd] at ht
          exact (List.cons.injEq .. |>.mp ht).1
        rw [List.dropWhile_cons, if_neg]
        rw [this, hc]
        exact Bool.false_ne_true
  rw [h1, List.reverse_reverse, dropWhile_dropWhile]

theorem noUp_canonList (l : List Char) : NoUp (canonList l) :=
  noUp_stripUnder _ (noUp_map_toLowerA _)

theorem canonList_idem (l : List Char) : canonList (canonList l) = canonList l := by
  have h : NoUp (canonList l) := noUp_canonList l
  calc canonList (canonList l)
      = stripUnder ((ins2 (ins1 (stripT (canonList l)))).map toLowerA) := rfl
    _ = stripUnder (canonList l) := by
        rw [stripT_of_noUp _ h, ins1_of_noUp _ h, ins2_of_noUp _ h,
          map_toLowerA_of_noUp _ h]
    _ = canonList l := by
        unfold canonList
        exact stripUnder_idem _

/-- C9: trait-name normalization is idempotent —
`canonical(canonical(name)) = canonical(name)` for every name — and both
`ResourceDiversifierTrait` and `resource_diversifier` normalize to
`resource_diversifier`. -/
theorem canonical_name_idempotent_C9 :
    (∀ name : String, canonicalName (canonicalName name) = canonicalName name) ∧
    canonicalName "ResourceDiversifierTrait" = "resource_diversifier" ∧
    canonicalName "resource_diversifier" = "resource_diversifier" := by
  refine ⟨fun name => ?_, by decide, by decide⟩
  exact congrArg String.mk (canonList_idem name.data)

/-! ### C1 — eat_nearby / consume_resource -/

/-- C1: the claim says `eat_nearby(radius)` with a resource in radius
returns True, removes the nearest resource from the world and credits
its energy.  In the source, `Environment.consume_resource` calls
`entity.consume_resource(resource.amount)`, but `BaseEntity` defines no
`consume_resource` method (its methods are `baseEntityMethodNames`; the
energy-credit method is `_receive_energy`, whose docstring says it is
called by `Environment.consume_resource`, and the repository's own tests
call `entity.consume_resource`).  So the call raises `AttributeError`
before the removal lines run: on the concrete world `exSimE` (one
resource 10 px away, radius 30) `eat_nearby` raises instead of returning
True, and the world — resources included — is unchanged. -/
theorem eat_nearby_attribute_error_C1 :
    "consume_resource" ∉ baseEntityMethodNames ∧
    (eatNearby exSimE "E" 30).2 =
      Except.error (PyErr.attributeError "consume_resource") ∧
    (eatNearby exSimE "E" 30).1 = exSimE := by
  refine ⟨by decide, rfl, rfl⟩

/-! ### C3 — tick-loop failure semantics -/

/-- C3 counterexample: the claim says a tick whose stage raises still
executes its remaining stages.  In `CoreEngine.run` ALL stages sit in
one try/except, so the first raising stage ends the tick's stage
sequence.  Concretely: with a failing first stage and an incrementing
second stage, the tick ends in state 0 with the exception caught — the
second stage (which by itself produces 1) never ran. -/
theorem stage_failure_skips_rest_C3 :
    runStages [exFailStage, exNextStage] 0 =
      (0, some (PyErr.attributeError "boom")) ∧
    runStages [exNextStage] 0 = (1, none) := by
  exact ⟨rfl, rfl⟩

/-- C3 amended: a raising stage ends that tick's stage sequence — the
stages before it keep their effects, the stages after it are skipped,
and the exception is caught (returned, never propagated); the loop
itself continues: the tick counter advances once per iteration whatever
the stage outcomes were. -/
theorem tick_error_handling_C3 {W E : Type} :
    (∀ (pre post : List (W → Except E W)) (e : E) (w w' : W),
        runStages pre w = (w', none) →
        runStages (pre ++ (fun _ => Except.error e) :: post) w = (w', some e)) ∧
    (∀ (tss : List (List (W → Except E W))) (w : W) (c : ℕ),
        (runLoop tss (w, c)).2 = c + tss.length) := by
  constructor
  · intro pre post e w w' h
    induction pre generalizing w with
    | nil =>
      have hw : w = w' := congrArg Prod.fst h
      subst hw
      simp [runStages]
    | cons f rest ih =>
      rw [List.cons_append]
      unfold runStages at h ⊢
      cases hf : f w with
      | ok w₁ =>
        rw [hf] at h
        simpa using ih w₁ h
      | error e₁ =>
        rw [hf] at h
        have : (none : Option E) = some e₁ := (congrArg Prod.snd h).symm
        simp at this
  · intro tss w c
    induction tss generalizing w c with
    | nil => simp [runLoop]
    | cons ss rest ih =>
      unfold runLoop
      rw [ih]
      simp [List.length_cons]
      omega

/-- Witness for `tick_error_handling_C3` at a concrete stage list. -/
theorem tick_error_handling_C3_witness :
    runStages ([exNextStage] ++
      (fun _ => Except.error (PyErr.attributeError "boom")) :: [exNextStage]) 0 =
      (1, some (PyErr.attributeError "boom")) ∧
    (runLoop [[exFailStage], [exNextStage]] ((0 : ℕ), 0)).2 = 0 + 2 := by
  have h := @tick_error_handling_C3 ℕ PyErr
  exact ⟨h.1 [exNextStage] [exNextStage] (PyErr.attributeError "boom") 0 1 rfl,
    h.2 [[exFailStage], [exNextStage]] 0 0⟩

/-! ### C4 — mutation rollback -/

/-- C4 counterexample: the claim says that on a Mutation Rollback event
the Patcher unregisters the trait family, deletes its file and publishes
a rollback feed message.  `RuntimePatcher.run` subscribes only to
`MUTATION_READY`; the only rollback subscriber is
`MutationGatekeeper._handle_rollback`, which just updates the record
status (and the rate-limit counter).  On the concrete state `exPipe`
the family stays registered, the file stays, no feed message appears —
only the status becomes `rolled_back`. -/
theorem rollback_leaves_registry_C4 :
    (deliverMutationRollback exPipe "m1").registryFamilies = ["energy_saver"] ∧
    (deliverMutationRollback exPipe "m1").traitFiles =
      ["trait_energy_saver_v1.py"] ∧
    (deliverMutationRollback exPipe "m1").feedMessages = [] ∧
    (deliverMutationRollback exPipe "m1").records = [("m1", "rolled_back")] ∧
    Channel.mutationRollback ∉ patcherSubscribedChannels := by
  refine ⟨by decide, by decide, by decide, by decide, by decide⟩

/-- C4 amended: on a Mutation Rollback event only the Gatekeeper reacts
(the Patcher is not subscribed to the channel): if the mutation record
exists its status becomes `rolled_back` (and the agent's active counter
is decremented); the trait registry, the trait files and the feed are
untouched, so no family is unregistered and living entities keep the
family. -/
theorem rollback_gatekeeper_only_C4 :
    ∀ (s : PipeState) (mid : String),
      (deliverMutationRollback s mid).registryFamilies = s.registryFamilies ∧
      (deliverMutationRollback s mid).traitFiles = s.traitFiles ∧
      (deliverMutationRollback s mid).feedMessages = s.feedMessages ∧
      ((s.records.find? (fun p => p.1 = mid)).isSome →
        (deliverMutationRollback s mid).records =
          s.records.map (fun p : String × String =>
            if p.1 = mid then (p.1, "rolled_back") else p)) ∧
      Channel.mutationRollback ∉ patcherSubscribedChannels := by
  intro s mid
  unfold deliverMutationRollback gatekeeperHandleRollback
  by_cases h : (s.records.find? (fun p => p.1 = mid)).isSome = true
  · simp only [h, if_true]
    split <;> exact ⟨rfl, rfl, rfl, fun _ => rfl, by decide⟩
  · rw [if_neg h]
    exact ⟨rfl, rfl, rfl, fun hc => absurd hc h, by decide⟩

/-- Witness for `rollback_gatekeeper_only_C4` on `exPipe`. -/
theorem rollback_gatekeeper_only_C4_witness :
    (deliverMutationRollback exPipe "m1").traitFiles = exPipe.traitFiles ∧
    (deliverMutationRollback exPipe "m1").records =
      exPipe.records.map (fun p : String × String =>
        if p.1 = "m1" then (p.1, "rolled_back") else p) := by
  have h := rollback_gatekeeper_only_C4 exPipe "m1"
  exact ⟨h.2.1, h.2.2.2.1 (by decide)⟩

/-! ### C8 — registry snapshot stability -/

theorem heapGet_applyRegOp (h : RegHeap) (op : RegOp) (oid : ℕ)
    (hlt : oid < h.next) :
    heapGet (applyRegOp h op) oid = heapGet h oid := by
  have hne : oid ≠ h.next := Nat.ne_of_lt hlt
  cases op with
  | reg name cls =>
    unfold applyRegOp regRegister heapGet
    simp [List.find?_cons, hne.symm]
  | unreg name =>
    show heapGet (regUnregister h name) oid = heapGet h oid
    unfold regUnregister
    split
    · unfold heapGet
      simp [List.find?_cons, hne.symm]
    · rfl

theorem next_mono_applyRegOp (h : RegHeap) (op : RegOp) :
    h.next ≤ (applyRegOp h op).next := by
  cases op with
  | reg name cls => exact Nat.le_succ _
  | unreg name =>
    show h.next ≤ (regUnregister h name).next
    unfold regUnregister
    split
    · exact Nat.le_succ _
    · exact Nat.le_refl _

theorem heapGet_applyRegOps (ops : List RegOp) (h : RegHeap) (oid : ℕ)
    (hlt : oid < h.next) :
    heapGet (applyRegOps ops h) oid = heapGet h oid := by
  induction ops generalizing h with
  | nil => rfl
  | cons op rest ih =>
    have h1 : oid < (applyRegOp h op).next :=
      lt_of_lt_of_le hlt (next_mono_applyRegOp h op)
    show heapGet (applyRegOps rest (applyRegOp h op)) oid = heapGet h oid
    rw [ih (applyRegOp h op) h1, heapGet_applyRegOp h op oid hlt]

/-- C8: a snapshot handed out by `get_snapshot` before any register /
unregister is unaffected by those later writes — for every sequence of
subsequent registry operations the dict object the snapshot refers to
still holds exactly the mapping it held when taken (writes are
copy-on-write pointer swaps; they never mutate an existing dict
object). -/
theorem registry_snapshot_stable_C8 :
    ∀ (h : RegHeap) (ops : List RegOp),
      heapGet (applyRegOps ops (regGetSnapshot h).1) (regGetSnapshot h).2 =
        heapGet (regGetSnapshot h).1 (regGetSnapshot h).2 ∧
      heapGet (regGetSnapshot h).1 (regGetSnapshot h).2 =
        some ((heapGet h h.cur).getD []) := by
  intro h ops
  constructor
  · exact heapGet_applyRegOps ops (regGetSnapshot h).1 (regGetSnapshot h).2
      (by unfold regGetSnapshot; exact Nat.lt_succ_self _)
  · unfold regGetSnapshot heapGet
    simp

/-! ### C7 — trait-list cap -/

theorem regUpgradeStep_length (maxActive : ℕ) (canonMap : List (String × ℕ))
    (ts : List TraitInst) (p : String × TraitClass) :
    (regUpgradeStep maxActive canonMap ts p).length ≤ max ts.length maxActive := by
  unfold regUpgradeStep
  cases hf : canonMap.find? (fun q => q.1 = p.1) with
  | some q =>
    dsimp only
    rw [List.length_set]
    exact le_max_left _ _
  | none =>
    dsimp only
    split
    · next hlt =>
      simp only [List.length_append, List.length_cons, List.length_nil]
      omega
    · exact le_max_left _ _

theorem regUpgradeFold_length (maxActive : ℕ) (canonMap : List (String × ℕ))
    (snap : List (String × TraitClass)) :
    ∀ ts : List TraitInst,
      (snap.foldl (regUpgradeStep maxActive canonMap) ts).length ≤
        max ts.length maxActive := by
  induction snap with
  | nil => intro ts; exact le_max_left _ _
  | cons p rest ih =>
    intro ts
    calc (List.foldl (regUpgradeStep maxActive canonMap)
            (regUpgradeStep maxActive canonMap ts p) rest).length
        ≤ max (regUpgradeStep maxActive canonMap ts p).length maxActive := ih _
      _ ≤ max (max ts.length maxActive) maxActive :=
          max_le_max_right _ (regUpgradeStep_length maxActive canonMap ts p)
      _ = max ts.length maxActive := by rw [max_assoc, max_self]

theorem spawnLoop_mem (snapshot : List (String × TraitClass)) :
    ∀ (inputs : List (String × ℚ × ℚ)) (n : ℕ) (s : Sim) (e : Entity),
      e ∈ (spawnLoop snapshot inputs n s).entities →
        e ∈ s.entities ∨ e.traits.length = snapshot.length := by
  intro inputs
  induction inputs with
  | nil =>
    intro n s e h
    cases n with
    | zero => exact Or.inl h
    | succ m => exact Or.inl h
  | cons inp rest ih =>
    intro n s e h
    cases n with
    | zero => exact Or.inl h
    | succ m =>
      unfold spawnLoop at h
      by_cases hcap : s.settings.maxEntities ≤ countAlive s
      · rw [if_pos hcap] at h
        exact Or.inl h
      · rw [if_neg hcap] at h
        rcases ih m _ e h with hmem | hlen
        · unfold spawnEntity at hmem
          rcases List.mem_append.mp hmem with h1 | h2
          · exact Or.inl h1
          · right
            have : e.traits =
                snapshot.map (fun p => TraitInst.mk p.2.className) := by
              have he : e = _ := List.mem_singleton.mp h2
              rw [he]
            rw [this, List.length_map]
        · exact Or.inr hlen

/-- C7 counterexample: the claim says both spawning and the
registry-upgrade pass keep every trait list at ≤ max_active_traits.
`_handle_spawning` attaches one instance per registry family with NO
cap: on an empty world (below min_population) with a 31-family registry
snapshot, the spawned entity carries 31 > 30 = max_active_traits
traits. -/
theorem spawn_exceeds_trait_cap_C7 :
    ∃ e ∈ (handleSpawningStage exSimEmpty exSnap31 [("n1", 100, 100)]).entities,
      defaultSettings.maxActiveTraits < e.traits.length := by decide

/-- C7 amended: the registry-upgrade pass respects the cap — it never
grows a trait list beyond max(current length, max_active_traits) — but
spawning does not: every entity spawned by `_handle_spawning` gets
exactly one trait instance per registry family, so its trait list length
equals the registry snapshot size, uncapped. -/
theorem trait_cap_C7 :
    (∀ (maxActive : ℕ) (snapshot : List (String × TraitClass)) (e : Entity),
      (applyRegistryToEntity maxActive snapshot e).traits.length ≤
        max e.traits.length maxActive) ∧
    (∀ (s : Sim) (snapshot : List (String × TraitClass))
        (inputs : List (String × ℚ × ℚ)),
      ∀ e ∈ (handleSpawningStage s snapshot inputs).entities,
        e ∈ s.entities ∨ e.traits.length = snapshot.length) := by
  constructor
  · intro maxActive snapshot e
    exact regUpgradeFold_length maxActive _ snapshot e.traits
  · intro s snapshot inputs e h
    exact spawnLoop_mem snapshot inputs _ s e h

/-- Witness for `trait_cap_C7`: the membership hypothesis discharged on
a concrete world. -/
theorem trait_cap_C7_witness :
    ((applyRegistryToEntity 30 exSnap31 exEntA).traits.length ≤
      max exEntA.traits.length 30) ∧
    (exEntA ∈ exSimC2.entities ∨ exEntA.traits.length = exSnap31.length) := by
  exact ⟨trait_cap_C7.1 30 exSnap31 exEntA,
    trait_cap_C7.2 exSimC2 exSnap31 [] exEntA (by decide)⟩

/-! ### Shared lemmas about the world model -/

theorem mem_modifyEntity {s : Sim} {id : String} {f : Entity → Entity}
    {e : Entity} (he : e ∈ (modifyEntity s id f).entities) :
    ∃ e₀ ∈ s.entities, e = if e₀.id = id then f e₀ else e₀ := by
  unfold modifyEntity at he
  simp only [List.mem_map] at he
  obtain ⟨e₀, h₀, heq⟩ := he
  exact ⟨e₀, h₀, heq.symm⟩

theorem findEntity_modify (s : Sim) (id : String) (f : Entity → Entity)
    (hf : ∀ e, (f e).id = e.id) :
    findEntity (modifyEntity s id f) id = (findEntity s id).map f := by
  show List.find? _ (s.entities.map _) = (List.find? _ s.entities).map f
  induction s.entities with
  | nil => rfl
  | cons a t ih =>
    rw [List.map_cons, List.find?_cons, List.find?_cons]
    by_cases ha : a.id = id
    · rw [if_pos ha]
      simp [ha, hf a]
    · rw [if_neg ha]
      simp [ha, ih]

theorem findEntity_modify_other (s : Sim) (id j : String) (f : Entity → Entity)
    (hf : ∀ e, (f e).id = e.id) (hne : j ≠ id) :
    findEntity (modifyEntity s j f) id = findEntity s id := by
  show List.find? _ (s.entities.map _) = List.find? _ s.entities
  induction s.entities with
  | nil => rfl
  | cons a t ih =>
    rw [List.map_cons, List.find?_cons, List.find?_cons]
    by_cases ha : a.id = j
    · rw [if_pos ha]
      have h1 : (f a).id = a.id := hf a
      have h2 : ¬ a.id = id := by rw [ha]; exact hne
      simp [h1, h2, ih]
    · rw [if_neg ha]
      by_cases hb : a.id = id
      · simp [hb]
      · simp [hb, ih]

theorem minByKey_mem {α : Type} (key : α → ℚ) (l : List α) :
    ∀ a : α, minByKey key a l ∈ a :: l := by
  induction l with
  | nil => intro a; simp [minByKey]
  | cons b t ih =>
    intro a
    unfold minByKey at ih ⊢
    rw [List.foldl_cons]
    have h := ih (if key b < key a then b else a)
    rcases List.mem_cons.mp h with h1 | h2
    · rw [h1]
      by_cases hk : key b < key a
      · rw [if_pos hk]; simp
      · rw [if_neg hk]; simp
    · simp [List.mem_cons.mpr (Or.inr h2)]

theorem eatNearby_state (s : Sim) (id : String) (r : ℚ) :
    (eatNearby s id r).1 = s := by
  unfold eatNearby
  cases findEntity s id with
  | none => rfl
  | some e =>
    dsimp only
    split
    · rfl
    · cases nearbyResources s e.x e.y r with
      | nil => rfl
      | cons q qs =>
        dsimp only
        unfold consumeResource
        split <;> rfl

theorem onTraitError_entities (s : Sim) (n : String) :
    (onTraitError s n).entities = s.entities := by
  unfold onTraitError
  split <;> rfl

theorem onTraitError_deliveredLog (s : Sim) (n : String) :
    (onTraitError s n).deliveredLog = s.deliveredLog := by
  unfold onTraitError
  split <;> rfl

theorem onTraitError_callbackLog (s : Sim) (n : String) :
    (onTraitError s n).callbackLog = s.callbackLog ++ [n] := by
  unfold onTraitError
  split <;> rfl

theorem onTraitError_feedInv (s : Sim) (n : String) (h : FeedInv s) :
    FeedInv (onTraitError s n) := by
  unfold onTraitError
  split
  · exact h
  · next hnot =>
    intro m
    constructor
    · show (s.feed ++ [n]).count m ≤ 1
      rw [List.count_append]
      by_cases hm : m = n
      · subst hm
        have h0 : m ∉ s.feed := fun hmem => hnot ((h m).2 hmem)
        rw [List.count_eq_zero.mpr h0]
        simp [List.count_singleton]
      · have : ([n].count m) = 0 :=
          List.count_eq_zero.mpr (by simp [hm])
        rw [this]
        simpa using (h m).1
    · intro hmem
      show m ∈ n :: s.reported
      rcases List.mem_append.mp hmem with h1 | h2
      · exact List.mem_cons_of_mem n ((h m).2 h1)
      · simp at h2
        simp [h2]

theorem applyAction_feed (s : Sim) (id : String) (a : TAction) :
    (applyAction s id a).1.feed = s.feed ∧
    (applyAction s id a).1.reported = s.reported ∧
    (applyAction s id a).1.callbackLog = s.callbackLog := by
  cases a with
  | eat r =>
    have h := eatNearby_state s id r
    cases he : eatNearby s id r with
    | mk s' res =>
      have hs : s' = s := by rw [← h, he]
      subst hs
      unfold applyAction
      dsimp only
      rw [he]
      cases res with
      | ok b => exact ⟨rfl, rfl, rfl⟩
      | error err => exact ⟨rfl, rfl, rfl⟩
  | attack r d =>
    unfold applyAction attackNearby
    cases findEntity s id with
    | none => exact ⟨rfl, rfl, rfl⟩
    | some e =>
      dsimp only
      split
      · exact ⟨rfl, rfl, rfl⟩
      · split
        · exact ⟨rfl, rfl, rfl⟩
        · exact ⟨rfl, rfl, rfl⟩
  | receive q => exact ⟨rfl, rfl, rfl⟩
  | move dx dy => exact ⟨rfl, rfl, rfl⟩
  | setX v => exact ⟨rfl, rfl, rfl⟩
  | setY v => exact ⟨rfl, rfl, rfl⟩
  | setEnergy v => exact ⟨rfl, rfl, rfl⟩
  | setAge v => exact ⟨rfl, rfl, rfl⟩
  | setMaxEnergy v => exact ⟨rfl, rfl, rfl⟩
  | setMetabolism v => exact ⟨rfl, rfl, rfl⟩
  | setState st => exact ⟨rfl, rfl, rfl⟩
  | deactivate n => exact ⟨rfl, rfl, rfl⟩
  | activate n => exact ⟨rfl, rfl, rfl⟩

theorem runActions_feed (s : Sim) (id : String) (l : List TAction) :
    (runActions s id l).1.feed = s.feed ∧
    (runActions s id l).1.reported = s.reported ∧
    (runActions s id l).1.callbackLog = s.callbackLog := by
  induction l generalizing s with
  | nil => exact ⟨rfl, rfl, rfl⟩
  | cons a rest ih =>
    unfold runActions
    cases ha : applyAction s id a with
    | mk s' err =>
      have hfa := applyAction_feed s id a
      rw [ha] at hfa
      cases err with
      | none =>
        dsimp only
        obtain ⟨h1, h2, h3⟩ := ih s'
        exact ⟨h1.trans hfa.1, h2.trans hfa.2.1, h3.trans hfa.2.2⟩
      | some e => exact hfa

theorem addDeact_id (n : String) (e : Entity) : (addDeact n e).id = e.id := by
  unfold addDeact
  split <;> rfl

theorem mem_addDeact_self (n : String) (e : Entity) :
    n ∈ (addDeact n e).deactivated := by
  unfold addDeact
  split
  · next h => exact h
  · exact List.mem_cons_self n _

theorem mem_addDeact_of_mem (n m : String) (e : Entity)
    (h : m ∈ e.deactivated) : m ∈ (addDeact n e).deactivated := by
  unfold addDeact
  split
  · exact h
  · exact List.mem_cons_of_mem n h

theorem deactOf_modify (s : Sim) (id : String) (f : Entity → Entity)
    (hf : ∀ e, (f e).id = e.id) :
    deactOf (modifyEntity s id f) id =
      ((findEntity s id).map (fun e => (f e).deactivated)).getD [] := by
  unfold deactOf
  rw [findEntity_modify s id f hf]
  cases findEntity s id <;> rfl

theorem deactOf_modify_keep (s : Sim) (id : String) (f : Entity → Entity)
    (hf : ∀ e, (f e).id = e.id)
    (hd : ∀ e, (f e).deactivated = e.deactivated) :
    deactOf (modifyEntity s id f) id = deactOf s id := by
  rw [deactOf_modify s id f hf]
  unfold deactOf
  cases findEntity s id <;> simp [hd]

theorem deactOf_eq_of_entities (s₁ s₂ : Sim) (id : String)
    (h : s₁.entities = s₂.entities) : deactOf s₁ id = deactOf s₂ id := by
  unfold deactOf findEntity
  rw [h]

theorem deactOf_eq_deactivated (s : Sim) (id : String) (e : Entity)
    (hfe : findEntity s id = some e) : deactOf s id = e.deactivated := by
  unfold deactOf
  rw [hfe]
  rfl

theorem deactOf_eq_nil (s : Sim) (id : String)
    (hfe : findEntity s id = none) : deactOf s id = [] := by
  unfold deactOf
  rw [hfe]
  rfl

theorem deact_mem_modify_keep (s : Sim) (id n : String) (f : Entity → Entity)
    (hf : ∀ e, (f e).id = e.id)
    (hd : ∀ e, (f e).deactivated = e.deactivated)
    (h : n ∈ deactOf s id) : n ∈ deactOf (modifyEntity s id f) id := by
  rw [deactOf_modify_keep s id f hf hd]
  exact h

theorem deact_mem_applyAction (s : Sim) (id n : String) (a : TAction)
    (hna : a ≠ TAction.activate n) (h : n ∈ deactOf s id) :
    n ∈ deactOf (applyAction s id a).1 id := by
  cases a with
  | move dx dy =>
    exact deact_mem_modify_keep s id n _ (fun e => rfl) (fun e => rfl) h
  | setX v =>
    exact deact_mem_modify_keep s id n _ (fun e => rfl) (fun e => rfl) h
  | setY v =>
    exact deact_mem_modify_keep s id n _ (fun e => rfl) (fun e => rfl) h
  | setEnergy v =>
    exact deact_mem_modify_keep s id n _ (fun e => rfl) (fun e => rfl) h
  | setAge v =>
    exact deact_mem_modify_keep s id n _ (fun e => rfl) (fun e => rfl) h
  | setMaxEnergy v =>
    exact deact_mem_modify_keep s id n _ (fun e => rfl) (fun e => rfl) h
  | setMetabolism v =>
    exact deact_mem_modify_keep s id n _ (fun e => rfl) (fun e => rfl) h
  | setState st =>
    exact deact_mem_modify_keep s id n _ (fun e => rfl) (fun e => rfl) h
  | receive q =>
    show n ∈ deactOf (receiveEnergy s id q) id
    have hent : (receiveEnergy s id q).entities =
        (modifyEntity s id (fun e =>
          { e with traitGain := e.traitGain + q,
                   energy := min (e.energy + q) e.maxEnergy })).entities := rfl
    rw [deactOf_eq_of_entities _ _ id hent]
    exact deact_mem_modify_keep s id n _ (fun e => rfl) (fun e => rfl) h
  | deactivate m =>
    show n ∈ deactOf (modifyEntity s id (addDeact m)) id
    rw [deactOf_modify s id (addDeact m) (addDeact_id m)]
    cases hfe : findEntity s id with
    | none =>
      rw [deactOf_eq_nil s id hfe] at h
      exact absurd h (List.not_mem_nil n)
    | some e =>
      rw [deactOf_eq_deactivated s id e hfe] at h
      exact mem_addDeact_of_mem m n e h
  | activate m =>
    have hmn : m ≠ n := by
      intro hc
      exact hna (by rw [hc])
    show n ∈ deactOf (modifyEntity s id (fun e =>
      { e with deactivated := e.deactivated.filter (fun x => !(x = m)) })) id
    rw [deactOf_modify s id (fun e =>
      { e with deactivated := e.deactivated.filter (fun x => !(x = m)) })
      (fun e => rfl)]
    cases hfe : findEntity s id with
    | none =>
      rw [deactOf_eq_nil s id hfe] at h
      exact absurd h (List.not_mem_nil n)
    | some e =>
      rw [deactOf_eq_deactivated s id e hfe] at h
      show n ∈ e.deactivated.filter (fun x => !(x = m))
      refine List.mem_filter.mpr ⟨h, ?_⟩
      simp [hmn.symm]
  | eat r =>
    have hst := eatNearby_state s id r
    cases he : eatNearby s id r with
    | mk s' res =>
      have hs : s' = s := by rw [← hst, he]
      subst hs
      unfold applyAction
      dsimp only
      rw [he]
      cases res with
      | ok b => exact h
      | error err => exact h
  | attack r d =>
    show n ∈ deactOf (attackNearby s id r d).1 id
    unfold attackNearby
    cases findEntity s id with
    | none => exact h
    | some e =>
      dsimp only
      split
      · exact h
      · cases hp : (nearbyEntities s e.x e.y r).filter
          (fun p => p.entityType = "predator" && p.isAlive && !(p.id = id)) with
        | nil => exact h
        | cons p ps =>
          dsimp only
          have hmem : minByKey (fun q => (q.x - e.x) ^ 2 + (q.y - e.y) ^ 2) p ps ∈
              p :: ps := minByKey_mem _ ps p
          rw [← hp] at hmem
          have hpred := (List.mem_filter.mp hmem).2
          have hne : (minByKey (fun q => (q.x - e.x) ^ 2 + (q.y - e.y) ^ 2) p ps).id
              ≠ id := by
            simp only [Bool.and_eq_true, Bool.not_eq_true', decide_eq_false_iff_not]
              at hpred
            exact hpred.2
          unfold deactOf
          rw [findEntity_modify_other s id _ _ ?_ hne]
          · exact h
          · intro t
            dsimp only
            split <;> rfl

theorem deact_mem_runActions (s : Sim) (id n : String) (l : List TAction)
    (hna : TAction.activate n ∉ l) (h : n ∈ deactOf s id) :
    n ∈ deactOf (runActions s id l).1 id := by
  induction l generalizing s with
  | nil => exact h
  | cons a rest ih =>
    have hna1 : a ≠ TAction.activate n := by
      intro hc
      exact hna (by rw [hc]; exact List.mem_cons_self _ _)
    have hna2 : TAction.activate n ∉ rest := by
      intro hc
      exact hna (List.mem_cons_of_mem a hc)
    unfold runActions
    cases ha : applyAction s id a with
    | mk s' err =>
      have hstep := deact_mem_applyAction s id n a hna1 h
      rw [ha] at hstep
      cases err with
      | none => exact ih s' hna2 (show n ∈ deactOf s' id from hstep)
      | some e => exact hstep

theorem deact_mem_executeOneTrait (s : Sim) (id n name : String)
    (outcome : TraitOutcome) (hna : TAction.activate n ∉ outcome.actions)
    (h : n ∈ deactOf s id) :
    n ∈ deactOf (executeOneTrait s id name outcome).1 id := by
  unfold executeOneTrait
  cases hr : runActions s id outcome.actions with
  | mk s' err =>
    have hrun := deact_mem_runActions s id n outcome.actions hna h
    rw [hr] at hrun
    cases err with
    | some e =>
      dsimp only
      rw [deactOf_eq_of_entities _ s' id (onTraitError_entities s' name)]
      exact hrun
    | none =>
      dsimp only
      cases outcome.ending with
      | ok => exact hrun
      | raised =>
        rw [deactOf_eq_of_entities _ s' id (onTraitError_entities s' name)]
        exact hrun
      | timeout => exact hrun

theorem deact_mem_execAux (o : Oracle) (id n : String) (hna : NoActivate o n) :
    ∀ (ts : List TraitInst) (i : ℕ) (s : Sim),
      n ∈ deactOf s id → n ∈ deactOf (execTraitsAux o id ts i s).1 id := by
  intro ts
  induction ts with
  | nil => intro i s h; exact h
  | cons t rest ih =>
    intro i s h
    unfold execTraitsAux
    by_cases hb : o.budget id i = true
    · rw [if_pos hb]; exact h
    · rw [if_neg hb]
      dsimp only
      by_cases hsk : t.className ∈ deactOf s id
      · rw [if_pos (show t.className ∈
          ((findEntity s id).map Entity.deactivated).getD [] from hsk)]
        exact ih (i + 1) s h
      · rw [if_neg (show t.className ∉
          ((findEntity s id).map Entity.deactivated).getD [] from hsk)]
        have hone := deact_mem_executeOneTrait s id n t.className
          (o.outcome id i) (hna id i) h
        cases hexec : executeOneTrait s id t.className (o.outcome id i) with
        | mk s1 success =>
          rw [hexec] at hone
          dsimp only
          cases success with
          | true =>
            rw [if_pos rfl]
            cases hrec : execTraitsAux o id rest (i + 1) s1 with
            | mk s3 log =>
              have := ih (i + 1) s1 hone
              rw [hrec] at this
              exact this
          | false =>
            rw [if_neg (Bool.false_ne_true)]
            have hadd : n ∈ deactOf (modifyEntity s1 id (addDeact t.className)) id := by
              rw [deactOf_modify s1 id _ (addDeact_id t.className)]
              unfold deactOf at hone
              cases hfe : findEntity s1 id with
              | none =>
                rw [hfe] at hone
                exact absurd (show n ∈ ([] : List String) from hone)
                  (List.not_mem_nil n)
              | some e =>
                rw [hfe] at hone
                exact mem_addDeact_of_mem _ n e hone
            cases hrec : execTraitsAux o id rest (i + 1)
                (modifyEntity s1 id (addDeact t.className)) with
            | mk s3 log =>
              have := ih (i + 1) _ hadd
              rw [hrec] at this
              exact this

theorem findEntity_modify_isSome (s : Sim) (id : String) (f : Entity → Entity)
    (hf : ∀ e, (f e).id = e.id) (h : (findEntity s id).isSome) :
    (findEntity (modifyEntity s id f) id).isSome := by
  rw [findEntity_modify s id f hf]
  cases hfe : findEntity s id with
  | none => rw [hfe] at h; exact absurd h (by simp)
  | some e => rfl

theorem noActivate_of_timeouts (o : Oracle) (hto : OracleTimeoutsOnly o) :
    ∀ m, NoActivate o m := by
  intro m id i
  rw [hto id i]
  exact List.not_mem_nil _

theorem execAux_cons_run (o : Oracle) (id : String) (t : TraitInst)
    (rest : List TraitInst) (i : ℕ) (s : Sim) (hb : o.budget id i = false)
    (hsk : t.className ∉ ((findEntity s id).map Entity.deactivated).getD []) :
    execTraitsAux o id (t :: rest) i s =
      ((execTraitsAux o id rest (i + 1) (execStepState o id t i s)).1,
       t.className :: (execTraitsAux o id rest (i + 1) (execStepState o id t i s)).2) := by
  unfold execStepState
  conv_lhs => rw [execTraitsAux]
  rw [if_neg (by rw [hb]; exact Bool.false_ne_true), if_neg hsk]

theorem execAux_cons_budget (o : Oracle) (id : String) (t : TraitInst)
    (rest : List TraitInst) (i : ℕ) (s : Sim) (hb : o.budget id i = true) :
    execTraitsAux o id (t :: rest) i s = (s, []) := by
  rw [execTraitsAux]
  rw [if_pos hb]

theorem execAux_cons_skip (o : Oracle) (id : String) (t : TraitInst)
    (rest : List TraitInst) (i : ℕ) (s : Sim) (hb : o.budget id i = false)
    (hsk : t.className ∈ ((findEntity s id).map Entity.deactivated).getD []) :
    execTraitsAux o id (t :: rest) i s = execTraitsAux o id rest (i + 1) s := by
  rw [execTraitsAux]
  rw [if_neg (by rw [hb]; exact Bool.false_ne_true), if_pos hsk]

theorem execStepState_timeout (o : Oracle) (id : String) (t : TraitInst)
    (i : ℕ) (s : Sim) (hto : OracleTimeoutsOnly o) :
    execStepState o id t i s = modifyEntity s id (addDeact t.className) := by
  unfold execStepState
  rw [hto id i]
  rfl

theorem execAux_feed_timeout (o : Oracle) (id : String)
    (hto : OracleTimeoutsOnly o) :
    ∀ (ts : List TraitInst) (i : ℕ) (s : Sim),
      (execTraitsAux o id ts i s).1.feed = s.feed ∧
      (execTraitsAux o id ts i s).1.reported = s.reported ∧
      (execTraitsAux o id ts i s).1.callbackLog = s.callbackLog := by
  intro ts
  induction ts with
  | nil => intro i s; exact ⟨rfl, rfl, rfl⟩
  | cons t rest ih =>
    intro i s
    by_cases hb : o.budget id i = true
    · rw [execAux_cons_budget o id t rest i s hb]; exact ⟨rfl, rfl, rfl⟩
    · by_cases hsk : t.className ∈
          ((findEntity s id).map Entity.deactivated).getD []
      · rw [execAux_cons_skip o id t rest i s (eq_false_of_ne_true hb) hsk]
        exact ih (i + 1) s
      · rw [execAux_cons_run o id t rest i s (eq_false_of_ne_true hb) hsk,
          execStepState_timeout o id t i s hto]
        exact ih (i + 1) (modifyEntity s id (addDeact t.className))

theorem execAux_deact_timeout (o : Oracle) (id : String)
    (hto : OracleTimeoutsOnly o) (hb : BudgetFree o) :
    ∀ (ts : List TraitInst) (i : ℕ) (s : Sim), (findEntity s id).isSome →
      ∀ t ∈ ts, t.className ∈ deactOf (execTraitsAux o id ts i s).1 id := by
  intro ts
  induction ts with
  | nil => intro i s _ t ht; exact absurd ht (List.not_mem_nil t)
  | cons t0 rest ih =>
    intro i s hsome t ht
    by_cases hsk : t0.className ∈
        ((findEntity s id).map Entity.deactivated).getD []
    · rw [execAux_cons_skip o id t0 rest i s (hb id i) hsk]
      rcases List.mem_cons.mp ht with h1 | h2
      · rw [h1]
        exact deact_mem_execAux o id t0.className
          (noActivate_of_timeouts o hto t0.className) rest (i + 1) s hsk
      · exact ih (i + 1) s hsome t h2
    · rw [execAux_cons_run o id t0 rest i s (hb id i) hsk,
        execStepState_timeout o id t0 i s hto]
      have hsome2 : (findEntity (modifyEntity s id (addDeact t0.className)) id).isSome :=
        findEntity_modify_isSome s id _ (addDeact_id t0.className) hsome
      rcases List.mem_cons.mp ht with h1 | h2
      · rw [h1]
        have hmem : t0.className ∈
            deactOf (modifyEntity s id (addDeact t0.className)) id := by
          rw [deactOf_modify s id _ (addDeact_id t0.className)]
          cases hfe : findEntity s id with
          | none => rw [hfe] at hsome; exact absurd hsome (by simp)
          | some e => exact mem_addDeact_self t0.className e
        exact deact_mem_execAux o id t0.className
          (noActivate_of_timeouts o hto t0.className) rest (i + 1) _ hmem
      · exact ih (i + 1) _ hsome2 t h2

theorem FeedInv_of_eq (s₁ s₂ : Sim) (hf : s₂.feed = s₁.feed)
    (hr : s₂.reported = s₁.reported) (h : FeedInv s₁) : FeedInv s₂ := by
  intro n
  rw [hf, hr]
  exact h n

theorem feedInv_runActions (s : Sim) (id : String) (l : List TAction)
    (h : FeedInv s) : FeedInv (runActions s id l).1 := by
  have hfr := runActions_feed s id l
  exact FeedInv_of_eq s _ hfr.1 hfr.2.1 h

theorem feedInv_executeOneTrait (s : Sim) (id name : String)
    (outcome : TraitOutcome) (h : FeedInv s) :
    FeedInv (executeOneTrait s id name outcome).1 := by
  unfold executeOneTrait
  cases hr : runActions s id outcome.actions with
  | mk s' err =>
    have hrun : FeedInv s' := by
      have := feedInv_runActions s id outcome.actions h
      rw [hr] at this
      exact this
    cases err with
    | some e => exact onTraitError_feedInv s' name hrun
    | none =>
      dsimp only
      cases outcome.ending with
      | ok => exact hrun
      | raised => exact onTraitError_feedInv s' name hrun
      | timeout => exact hrun

theorem feedInv_execAux (o : Oracle) (id : String) :
    ∀ (ts : List TraitInst) (i : ℕ) (s : Sim),
      FeedInv s → FeedInv (execTraitsAux o id ts i s).1 := by
  intro ts
  induction ts with
  | nil => intro i s h; exact h
  | cons t rest ih =>
    intro i s h
    unfold execTraitsAux
    by_cases hb : o.budget id i = true
    · rw [if_pos hb]; exact h
    · rw [if_neg hb]
      dsimp only
      by_cases hsk : t.className ∈
          ((findEntity s id).map Entity.deactivated).getD []
      · rw [if_pos hsk]
        exact ih (i + 1) s h
      · rw [if_neg hsk]
        cases hexec : executeOneTrait s id t.className (o.outcome id i) with
        | mk s1 success =>
          have h1 : FeedInv s1 := by
            have := feedInv_executeOneTrait s id t.className (o.outcome id i) h
            rw [hexec] at this
            exact this
          dsimp only
          cases success with
          | true =>
            rw [if_pos rfl]
            cases hrec : execTraitsAux o id rest (i + 1) s1 with
            | mk s3 log =>
              have := ih (i + 1) s1 h1
              rw [hrec] at this
              exact this
          | false =>
            rw [if_neg (Bool.false_ne_true)]
            have h2 : FeedInv (modifyEntity s1 id (addDeact t.className)) :=
              FeedInv_of_eq s1 _ rfl rfl h1
            cases hrec : execTraitsAux o id rest (i + 1)
                (modifyEntity s1 id (addDeact t.className)) with
            | mk s3 log =>
              have := ih (i + 1) _ h2
              rw [hrec] at this
              exact this

theorem executeTraits_nil (s : Sim) (id : String) (o : Oracle)
    (h : ((findEntity s id).map Entity.traits).getD [] = []) :
    executeTraits s id o = (s, []) := by
  show (if (((findEntity s id).map Entity.traits).getD []).isEmpty then (s, [])
        else execTraitsAux o id (((findEntity s id).map Entity.traits).getD []) 0 s)
      = (s, [])
  rw [h]
  exact rfl

theorem executeTraits_cons (s : Sim) (id : String) (o : Oracle)
    (t : TraitInst) (rest : List TraitInst)
    (h : ((findEntity s id).map Entity.traits).getD [] = t :: rest) :
    executeTraits s id o = execTraitsAux o id (t :: rest) 0 s := by
  show (if (((findEntity s id).map Entity.traits).getD []).isEmpty then (s, [])
        else execTraitsAux o id (((findEntity s id).map Entity.traits).getD []) 0 s)
      = execTraitsAux o id (t :: rest) 0 s
  rw [h]
  exact rfl

/-! ### C5 — executor failure handling -/

/-- C5 counterexample: in a world whose single entity holds one
`ResourceDiversifierTrait` instance, a trait execution that times out
gets the trait's CLASS name `ResourceDiversifierTrait` added to the
deactivated set — not the canonical name `resource_diversifier` — and
the first-error callback is never invoked (no callback invocation, no
feed message): timeouts take the `TimeoutError` branch of
`execute_trait`, which only logs a warning. -/
theorem trait_timeout_handling_gap_C5 :
    deactOf (executeTraits exSimT "T" exOracleTimeout).1 "T"
        = ["ResourceDiversifierTrait"] ∧
    canonicalName "ResourceDiversifierTrait" = "resource_diversifier" ∧
    "resource_diversifier" ∉
      deactOf (executeTraits exSimT "T" exOracleTimeout).1 "T" ∧
    (executeTraits exSimT "T" exOracleTimeout).1.callbackLog = [] ∧
    (executeTraits exSimT "T" exOracleTimeout).1.feed = [] := by
  exact ⟨by decide, by decide, by decide, by decide, by decide⟩

/-- C5 (amended): when every trait execution of an entity times out (and
the tick budget does not cut the loop short), `execute_traits` leaves
the feed, the error-dedup set and the callback log untouched — the
first-error callback fires on exceptions only, never on timeouts — while
every trait's CLASS name (`type(trait).__name__`, not the canonical
registry name) lands in the entity's deactivated set; and for EVERY
oracle the engine-level feed stays deduplicated: at most one trait-error
feed message per name.  No exception propagates: `executeTraits` is
total and returns a world. -/
theorem trait_failure_handling_C5 (o : Oracle) (s : Sim) (id : String)
    (hto : OracleTimeoutsOnly o) (hbf : BudgetFree o)
    (hsome : (findEntity s id).isSome) :
    ((executeTraits s id o).1.feed = s.feed ∧
     (executeTraits s id o).1.reported = s.reported ∧
     (executeTraits s id o).1.callbackLog = s.callbackLog) ∧
    (∀ t ∈ ((findEntity s id).map Entity.traits).getD [],
       t.className ∈ deactOf (executeTraits s id o).1 id) ∧
    (∀ o' : Oracle, FeedInv s → FeedInv (executeTraits s id o').1) := by
  cases hts : ((findEntity s id).map Entity.traits).getD [] with
  | nil =>
    rw [executeTraits_nil s id o hts]
    refine ⟨⟨rfl, rfl, rfl⟩, ?_, ?_⟩
    · intro t ht
      exact absurd ht (List.not_mem_nil t)
    · intro o' hfi
      rw [executeTraits_nil s id o' hts]
      exact hfi
  | cons t rest =>
    rw [executeTraits_cons s id o t rest hts]
    refine ⟨execAux_feed_timeout o id hto (t :: rest) 0 s, ?_, ?_⟩
    · intro t' ht'
      exact execAux_deact_timeout o id hto hbf (t :: rest) 0 s hsome t' ht'
    · intro o' hfi
      rw [executeTraits_cons s id o' t rest hts]
      exact feedInv_execAux o' id (t :: rest) 0 s hfi

theorem trait_failure_handling_C5_witness :
    ((executeTraits exSimT "T" exOracleTimeout).1.feed = exSimT.feed ∧
     (executeTraits exSimT "T" exOracleTimeout).1.reported = exSimT.reported ∧
     (executeTraits exSimT "T" exOracleTimeout).1.callbackLog = exSimT.callbackLog) ∧
    (∀ t ∈ ((findEntity exSimT "T").map Entity.traits).getD [],
       t.className ∈ deactOf (executeTraits exSimT "T" exOracleTimeout).1 "T") ∧
    (∀ o' : Oracle, FeedInv exSimT → FeedInv (executeTraits exSimT "T" o').1) := by
  refine ⟨?_, ?_, ?_⟩
  · exact (trait_failure_handling_C5 exOracleTimeout exSimT "T"
      (fun _ _ => rfl) (fun _ _ => rfl) (by decide)).1
  · exact (trait_failure_handling_C5 exOracleTimeout exSimT "T"
      (fun _ _ => rfl) (fun _ _ => rfl) (by decide)).2.1
  · exact (trait_failure_handling_C5 exOracleTimeout exSimT "T"
      (fun _ _ => rfl) (fun _ _ => rfl) (by decide)).2.2

/-! ### C10 — deactivation persists across upgrades -/

theorem deact_mem_execStepState (o : Oracle) (id n : String) (t : TraitInst)
    (i : ℕ) (s : Sim) (hna : NoActivate o n) (h : n ∈ deactOf s id) :
    n ∈ deactOf (execStepState o id t i s) id := by
  have hE : execStepState o id t i s =
      if (executeOneTrait s id t.className (o.outcome id i)).2 = true then
        (executeOneTrait s id t.className (o.outcome id i)).1
      else
        modifyEntity (executeOneTrait s id t.className (o.outcome id i)).1 id
          (addDeact t.className) := rfl
  rw [hE]
  have hone := deact_mem_executeOneTrait s id n t.className (o.outcome id i)
    (hna id i) h
  by_cases hsucc : (executeOneTrait s id t.className (o.outcome id i)).2 = true
  · rw [if_pos hsucc]
    exact hone
  · rw [if_neg hsucc]
    rw [deactOf_modify _ id _ (addDeact_id t.className)]
    unfold deactOf at hone
    cases hfe : findEntity (executeOneTrait s id t.className (o.outcome id i)).1 id with
    | none =>
      rw [hfe] at hone
      exact absurd (show n ∈ ([] : List String) from hone) (List.not_mem_nil n)
    | some e =>
      rw [hfe] at hone
      exact mem_addDeact_of_mem _ n e hone

theorem exec_log_not_deact (o : Oracle) (id n : String) (hna : NoActivate o n) :
    ∀ (ts : List TraitInst) (i : ℕ) (s : Sim),
      n ∈ deactOf s id → n ∉ (execTraitsAux o id ts i s).2 := by
  intro ts
  induction ts with
  | nil => intro i s _; exact List.not_mem_nil n
  | cons t rest ih =>
    intro i s h
    by_cases hb : o.budget id i = true
    · rw [execAux_cons_budget o id t rest i s hb]
      exact List.not_mem_nil n
    · by_cases hsk : t.className ∈ ((findEntity s id).map Entity.deactivated).getD []
      · rw [execAux_cons_skip o id t rest i s (eq_false_of_ne_true hb) hsk]
        exact ih (i + 1) s h
      · rw [execAux_cons_run o id t rest i s (eq_false_of_ne_true hb) hsk]
        dsimp only
        intro hmem
        rcases List.mem_cons.mp hmem with h1 | h2
        · exact hsk (show t.className ∈ _ from h1 ▸ h)
        · exact ih (i + 1) (execStepState o id t i s)
            (deact_mem_execStepState o id n t i s hna h) h2

/-- C10: a class name in an entity's deactivated set stays there.  A
registry-upgrade pass never touches the deactivated set
(`_apply_new_registry_traits` only rewrites the trait list), and as long
as the entity's trait code never calls `activate_trait` for that name,
trait execution keeps the name in the set and never executes a trait of
that class — the executor's skip test compares the instance's class
`__name__` against the set, so the upgraded same-name instance is
skipped too. -/
theorem deactivation_survives_upgrade_C10 (m : ℕ)
    (snap : List (String × TraitClass)) (s : Sim) (id n : String) (o : Oracle)
    (hna : NoActivate o n) (h : n ∈ deactOf s id) :
    (∀ e : Entity, (applyRegistryToEntity m snap e).deactivated = e.deactivated) ∧
    n ∈ deactOf (executeTraits s id o).1 id ∧
    n ∉ (executeTraits s id o).2 := by
  refine ⟨fun e => rfl, ?_, ?_⟩
  · cases hts : ((findEntity s id).map Entity.traits).getD [] with
    | nil =>
      rw [executeTraits_nil s id o hts]
      exact h
    | cons t rest =>
      rw [executeTraits_cons s id o t rest hts]
      exact deact_mem_execAux o id n hna (t :: rest) 0 s h
  · cases hts : ((findEntity s id).map Entity.traits).getD [] with
    | nil =>
      rw [executeTraits_nil s id o hts]
      exact List.not_mem_nil n
    | cons t rest =>
      rw [executeTraits_cons s id o t rest hts]
      exact exec_log_not_deact o id n hna (t :: rest) 0 s h

theorem deactivation_survives_upgrade_C10_witness :
    (∀ e : Entity,
       (applyRegistryToEntity 30 exSnapD e).deactivated = e.deactivated) ∧
    "EnergySaverTrait" ∈ deactOf (executeTraits exSimD "D" oracleNil).1 "D" ∧
    "EnergySaverTrait" ∉ (executeTraits exSimD "D" oracleNil).2 :=
  deactivation_survives_upgrade_C10 30 exSnapD exSimD "D" "EnergySaverTrait"
    oracleNil (fun _ _ => List.not_mem_nil _) (by decide)

/-! ### C6 — the energy sandbox -/

theorem findEntity_eq_of_entities (s₁ s₂ : Sim) (id : String)
    (h : s₁.entities = s₂.entities) : findEntity s₁ id = findEntity s₂ id := by
  unfold findEntity
  rw [h]

theorem traitGainOf_eq_of_entities (s₁ s₂ : Sim) (id : String)
    (h : s₁.entities = s₂.entities) : traitGainOf s₁ id = traitGainOf s₂ id := by
  unfold traitGainOf
  rw [findEntity_eq_of_entities s₁ s₂ id h]

theorem findEntity_modify_isSome_any (s : Sim) (j id : String)
    (f : Entity → Entity) (hf : ∀ e, (f e).id = e.id)
    (h : (findEntity s id).isSome) :
    (findEntity (modifyEntity s j f) id).isSome := by
  by_cases hj : j = id
  · subst hj
    exact findEntity_modify_isSome s j f hf h
  · rw [findEntity_modify_other s id j f hf hj]
    exact h

theorem traitGainOf_modify_keep (s : Sim) (j id : String) (f : Entity → Entity)
    (hf : ∀ e, (f e).id = e.id) (hg : ∀ e, (f e).traitGain = e.traitGain) :
    traitGainOf (modifyEntity s j f) id = traitGainOf s id := by
  unfold traitGainOf
  by_cases hj : j = id
  · subst hj
    rw [findEntity_modify s j f hf]
    cases findEntity s j with
    | none => rfl
    | some e => simp [hg e]
  · rw [findEntity_modify_other s id j f hf hj]

theorem gainLog_of_modify (s : Sim) (j id : String) (f : Entity → Entity)
    (hf : ∀ e, (f e).id = e.id) (hg : ∀ e, (f e).traitGain = e.traitGain)
    (hsome : (findEntity s id).isSome) :
    ∃ Δ : List ℚ,
      (modifyEntity s j f).deliveredLog = s.deliveredLog ++ Δ ∧
      traitGainOf (modifyEntity s j f) id = traitGainOf s id + Δ.sum ∧
      (findEntity (modifyEntity s j f) id).isSome := by
  refine ⟨[], ?_, ?_, findEntity_modify_isSome_any s j id f hf hsome⟩
  · show s.deliveredLog = s.deliveredLog ++ []
    rw [List.append_nil]
  · rw [traitGainOf_modify_keep s j id f hf hg, List.sum_nil, add_zero]

theorem applyAction_gainLog (s : Sim) (id : String) (a : TAction)
    (hsome : (findEntity s id).isSome) :
    ∃ Δ : List ℚ,
      (applyAction s id a).1.deliveredLog = s.deliveredLog ++ Δ ∧
      traitGainOf (applyAction s id a).1 id = traitGainOf s id + Δ.sum ∧
      (findEntity (applyAction s id a).1 id).isSome := by
  cases a with
  | move dx dy =>
    exact gainLog_of_modify s id id _ (fun e => rfl) (fun e => rfl) hsome
  | setX v =>
    exact gainLog_of_modify s id id _ (fun e => rfl) (fun e => rfl) hsome
  | setY v =>
    exact gainLog_of_modify s id id _ (fun e => rfl) (fun e => rfl) hsome
  | setEnergy v =>
    exact gainLog_of_modify s id id _ (fun e => rfl) (fun e => rfl) hsome
  | setAge v =>
    exact gainLog_of_modify s id id _ (fun e => rfl) (fun e => rfl) hsome
  | setMaxEnergy v =>
    exact gainLog_of_modify s id id _ (fun e => rfl) (fun e => rfl) hsome
  | setMetabolism v =>
    exact gainLog_of_modify s id id _ (fun e => rfl) (fun e => rfl) hsome
  | setState st =>
    exact gainLog_of_modify s id id _ (fun e => rfl) (fun e => rfl) hsome
  | deactivate m =>
    exact gainLog_of_modify s id id _ (addDeact_id m)
      (fun e => by unfold addDeact; split <;> rfl) hsome
  | activate m =>
    exact gainLog_of_modify s id id _ (fun e => rfl) (fun e => rfl) hsome
  | eat r =>
    have hst := eatNearby_state s id r
    cases he : eatNearby s id r with
    | mk s' res =>
      have hs : s' = s := by rw [← hst, he]
      subst hs
      unfold applyAction
      dsimp only
      rw [he]
      cases res with
      | ok b =>
        exact ⟨[], by rw [List.append_nil], by rw [List.sum_nil, add_zero], hsome⟩
      | error err =>
        exact ⟨[], by rw [List.append_nil], by rw [List.sum_nil, add_zero], hsome⟩
  | attack r d =>
    show ∃ Δ : List ℚ,
      (attackNearby s id r d).1.deliveredLog = s.deliveredLog ++ Δ ∧
      traitGainOf (attackNearby s id r d).1 id = traitGainOf s id + Δ.sum ∧
      (findEntity (attackNearby s id r d).1 id).isSome
    unfold attackNearby
    cases findEntity s id with
    | none =>
      exact ⟨[], by rw [List.append_nil], by rw [List.sum_nil, add_zero], hsome⟩
    | some e =>
      dsimp only
      split
      · exact ⟨[], by rw [List.append_nil], by rw [List.sum_nil, add_zero], hsome⟩
      · cases hp : (nearbyEntities s e.x e.y r).filter
            (fun p => p.entityType = "predator" && p.isAlive && !(p.id = id)) with
        | nil =>
          exact ⟨[], by rw [List.append_nil], by rw [List.sum_nil, add_zero], hsome⟩
        | cons p ps =>
          dsimp only
          exact gainLog_of_modify s _ id _
            (fun t => by split <;> rfl)
            (fun t => by split <;> rfl) hsome
  | receive q =>
    refine ⟨[q], rfl, ?_, ?_⟩
    · obtain ⟨e0, hfe0⟩ := Option.isSome_iff_exists.mp hsome
      have h0 : findEntity (receiveEnergy s id q) id =
          findEntity (modifyEntity s id (fun e =>
            { e with traitGain := e.traitGain + q,
                     energy := min (e.energy + q) e.maxEnergy })) id := rfl
      show traitGainOf (receiveEnergy s id q) id = traitGainOf s id + ([q] : List ℚ).sum
      unfold traitGainOf
      rw [h0, findEntity_modify s id (fun e =>
        { e with traitGain := e.traitGain + q,
                 energy := min (e.energy + q) e.maxEnergy }) (fun x => rfl), hfe0]
      show e0.traitGain + q = e0.traitGain + ([q] : List ℚ).sum
      have hq : ([q] : List ℚ).sum = q := by simp
      rw [hq]
    · have h0 : findEntity (receiveEnergy s id q) id =
          findEntity (modifyEntity s id (fun e =>
            { e with traitGain := e.traitGain + q,
                     energy := min (e.energy + q) e.maxEnergy })) id := rfl
      show ((findEntity (receiveEnergy s id q) id)).isSome
      rw [h0]
      exact findEntity_modify_isSome s id _ (fun x => rfl) hsome

theorem runActions_gainLog (id : String) :
    ∀ (l : List TAction) (s : Sim), (findEntity s id).isSome →
      ∃ Δ : List ℚ,
        (runActions s id l).1.deliveredLog = s.deliveredLog ++ Δ ∧
        traitGainOf (runActions s id l).1 id = traitGainOf s id + Δ.sum ∧
        (findEntity (runActions s id l).1 id).isSome := by
  intro l
  induction l with
  | nil =>
    intro s h
    exact ⟨[], by rw [List.append_nil]; rfl, by rw [List.sum_nil, add_zero]; rfl, h⟩
  | cons a rest ih =>
    intro s h
    obtain ⟨Δ1, hL1, hG1, hS1⟩ := applyAction_gainLog s id a h
    unfold runActions
    cases ha : applyAction s id a with
    | mk s' err =>
      rw [ha] at hL1 hG1 hS1
      cases err with
      | none =>
        dsimp only
        obtain ⟨Δ2, hL2, hG2, hS2⟩ := ih s' hS1
        refine ⟨Δ1 ++ Δ2, ?_, ?_, hS2⟩
        · rw [hL2, hL1, List.append_assoc]
        · rw [hG2, hG1, List.sum_append, add_assoc]
      | some e =>
        exact ⟨Δ1, hL1, hG1, hS1⟩

theorem executeOneTrait_gainLog (s : Sim) (id name : String) (oc : TraitOutcome)
    (hsome : (findEntity s id).isSome) :
    ∃ Δ : List ℚ,
      (executeOneTrait s id name oc).1.deliveredLog = s.deliveredLog ++ Δ ∧
      traitGainOf (executeOneTrait s id name oc).1 id = traitGainOf s id + Δ.sum ∧
      (findEntity (executeOneTrait s id name oc).1 id).isSome := by
  obtain ⟨Δ, hL, hG, hS⟩ := runActions_gainLog id oc.actions s hsome
  unfold executeOneTrait
  cases hr : runActions s id oc.actions with
  | mk s' err =>
    rw [hr] at hL hG hS
    cases err with
    | some e =>
      dsimp only
      refine ⟨Δ, ?_, ?_, ?_⟩
      · rw [onTraitError_deliveredLog, hL]
      · rw [traitGainOf_eq_of_entities _ s' id (onTraitError_entities s' name), hG]
      · rw [findEntity_eq_of_entities _ s' id (onTraitError_entities s' name)]
        exact hS
    | none =>
      dsimp only
      cases oc.ending with
      | ok => exact ⟨Δ, hL, hG, hS⟩
      | raised =>
        refine ⟨Δ, ?_, ?_, ?_⟩
        · rw [onTraitError_deliveredLog, hL]
        · rw [traitGainOf_eq_of_entities _ s' id (onTraitError_entities s' name), hG]
        · rw [findEntity_eq_of_entities _ s' id (onTraitError_entities s' name)]
          exact hS
      | timeout => exact ⟨Δ, hL, hG, hS⟩

theorem execStepState_gainLog (o : Oracle) (id : String) (t : TraitInst)
    (i : ℕ) (s : Sim) (hsome : (findEntity s id).isSome) :
    ∃ Δ : List ℚ,
      (execStepState o id t i s).deliveredLog = s.deliveredLog ++ Δ ∧
      traitGainOf (execStepState o id t i s) id = traitGainOf s id + Δ.sum ∧
      (findEntity (execStepState o id t i s) id).isSome := by
  obtain ⟨Δ, hL, hG, hS⟩ :=
    executeOneTrait_gainLog s id t.className (o.outcome id i) hsome
  have hE : execStepState o id t i s =
      if (executeOneTrait s id t.className (o.outcome id i)).2 = true then
        (executeOneTrait s id t.className (o.outcome id i)).1
      else
        modifyEntity (executeOneTrait s id t.className (o.outcome id i)).1 id
          (addDeact t.className) := rfl
  rw [hE]
  by_cases hsucc : (executeOneTrait s id t.className (o.outcome id i)).2 = true
  · rw [if_pos hsucc]
    exact ⟨Δ, hL, hG, hS⟩
  · rw [if_neg hsucc]
    refine ⟨Δ, ?_, ?_, ?_⟩
    · show (executeOneTrait s id t.className (o.outcome id i)).1.deliveredLog =
        s.deliveredLog ++ Δ
      exact hL
    · rw [traitGainOf_modify_keep _ id id _ (addDeact_id t.className)
        (fun x => by unfold addDeact; split <;> rfl)]
      exact hG
    · exact findEntity_modify_isSome _ id _ (addDeact_id t.className) hS

theorem execAux_gainLog (o : Oracle) (id : String) :
    ∀ (ts : List TraitInst) (i : ℕ) (s : Sim), (findEntity s id).isSome →
      ∃ Δ : List ℚ,
        (execTraitsAux o id ts i s).1.deliveredLog = s.deliveredLog ++ Δ ∧
        traitGainOf (execTraitsAux o id ts i s).1 id = traitGainOf s id + Δ.sum ∧
        (findEntity (execTraitsAux o id ts i s).1 id).isSome := by
  intro ts
  induction ts with
  | nil =>
    intro i s h
    exact ⟨[], by rw [List.append_nil]; rfl, by rw [List.sum_nil, add_zero]; rfl, h⟩
  | cons t rest ih =>
    intro i s h
    by_cases hb : o.budget id i = true
    · rw [execAux_cons_budget o id t rest i s hb]
      exact ⟨[], by rw [List.append_nil], by rw [List.sum_nil, add_zero], h⟩
    · by_cases hsk : t.className ∈ ((findEntity s id).map Entity.deactivated).getD []
      · rw [execAux_cons_skip o id t rest i s (eq_false_of_ne_true hb) hsk]
        exact ih (i + 1) s h
      · rw [execAux_cons_run o id t rest i s (eq_false_of_ne_true hb) hsk]
        dsimp only
        obtain ⟨Δ1, hL1, hG1, hS1⟩ := execStepState_gainLog o id t i s h
        obtain ⟨Δ2, hL2, hG2, hS2⟩ := ih (i + 1) (execStepState o id t i s) hS1
        refine ⟨Δ1 ++ Δ2, ?_, ?_, hS2⟩
        · rw [hL2, hL1, List.append_assoc]
        · rw [hG2, hG1, List.sum_append, add_assoc]

theorem executeTraits_gainLog (o : Oracle) (id : String) (s : Sim)
    (hsome : (findEntity s id).isSome) :
    ∃ Δ : List ℚ,
      (executeTraits s id o).1.deliveredLog = s.deliveredLog ++ Δ ∧
      traitGainOf (executeTraits s id o).1 id = traitGainOf s id + Δ.sum ∧
      (findEntity (executeTraits s id o).1 id).isSome := by
  cases hts : ((findEntity s id).map Entity.traits).getD [] with
  | nil =>
    rw [executeTraits_nil s id o hts]
    exact ⟨[], by rw [List.append_nil], by rw [List.sum_nil, add_zero], hsome⟩
  | cons t rest =>
    rw [executeTraits_cons s id o t rest hts]
    exact execAux_gainLog o id (t :: rest) 0 s hsome

theorem deathCheck_fields (x : Entity) :
    (if x.energy ≤ 0 then { x with state := "dead" } else x).energy = x.energy ∧
    (if x.energy ≤ 0 then { x with state := "dead" } else x).age = x.age ∧
    (if x.energy ≤ 0 then { x with state := "dead" } else x).metabolismRate
      = x.metabolismRate ∧
    (if x.energy ≤ 0 then { x with state := "dead" } else x).maxEnergy
      = x.maxEnergy := by
  split <;> exact ⟨rfl, rfl, rfl, rfl⟩

theorem deathCheck_id (x : Entity) :
    (if x.energy ≤ 0 then { x with state := "dead" } else x).id = x.id := by
  split <;> rfl

theorem killCheck_id (x : Entity) :
    (if 0 < x.maxAge ∧ x.maxAge ≤ x.age then { x with state := "dead" } else x).id
      = x.id := by
  split <;> rfl

theorem infDrain_id (x : Entity) :
    (if x.infected then { x with energy := x.energy - 2 } else x).id = x.id := by
  split <;> rfl

theorem baseUpdate_post (s : Sim) (id : String) (o : Oracle) (e4 : Entity)
    (h4 : findEntity (stage4 s id) id = some e4) :
    ∃ (Δ : List ℚ) (e' : Entity),
      findEntity (baseUpdate s id o) id = some e' ∧
      (baseUpdate s id o).deliveredLog = s.deliveredLog ++ Δ ∧
      e'.metabolismRate = e4.metabolismRate ∧
      e'.age = e4.age ∧
      e'.energy = min (e4.energy + Δ.sum) e'.maxEnergy := by
  have hB : baseUpdate s id o =
      modifyEntity (modifyEntity (executeTraits (modifyEntity (stage4 s id) id
        (fun e => { e with traitGain := 0 })) id o).1 id
        (fun e => { e with
          age := e4.age,
          energy := min (e4.energy + e.traitGain) e.maxEnergy,
          metabolismRate := e4.metabolismRate })) id
        (fun e => if e.energy ≤ 0 then { e with state := "dead" } else e) := by
    show (match findEntity (stage4 s id) id with
          | none => stage4 s id
          | some snap =>
            modifyEntity (modifyEntity (executeTraits (modifyEntity (stage4 s id) id
              (fun e => { e with traitGain := 0 })) id o).1 id
              (fun e => { e with
                age := snap.age,
                energy := min (snap.energy + e.traitGain) e.maxEnergy,
                metabolismRate := snap.metabolismRate })) id
              (fun e => if e.energy ≤ 0 then { e with state := "dead" } else e)) = _
    rw [h4]
  have h5 : findEntity (modifyEntity (stage4 s id) id
      (fun e => { e with traitGain := 0 })) id = some { e4 with traitGain := 0 } := by
    rw [findEntity_modify (stage4 s id) id (fun e => { e with traitGain := 0 })
      (fun x => rfl), h4]
    rfl
  have h5s : (findEntity (modifyEntity (stage4 s id) id
      (fun e => { e with traitGain := 0 })) id).isSome := by
    rw [h5]; rfl
  obtain ⟨Δ, hL6, hG6, hS6⟩ := executeTraits_gainLog o id _ h5s
  obtain ⟨e6, hfe6⟩ := Option.isSome_iff_exists.mp hS6
  have hG5 : traitGainOf (modifyEntity (stage4 s id) id
      (fun e => { e with traitGain := 0 })) id = 0 := by
    unfold traitGainOf
    rw [h5]
    rfl
  have h6g : traitGainOf (executeTraits (modifyEntity (stage4 s id) id
      (fun e => { e with traitGain := 0 })) id o).1 id = e6.traitGain := by
    unfold traitGainOf
    rw [hfe6]
    rfl
  rw [h6g, hG5, zero_add] at hG6
  have h7 : findEntity (modifyEntity (executeTraits (modifyEntity (stage4 s id) id
      (fun e => { e with traitGain := 0 })) id o).1 id
      (fun e => { e with
        age := e4.age,
        energy := min (e4.energy + e.traitGain) e.maxEnergy,
        metabolismRate := e4.metabolismRate })) id =
      some { e6 with
        age := e4.age,
        energy := min (e4.energy + e6.traitGain) e6.maxEnergy,
        metabolismRate := e4.metabolismRate } := by
    rw [findEntity_modify _ id (fun e => { e with
        age := e4.age,
        energy := min (e4.energy + e.traitGain) e.maxEnergy,
        metabolismRate := e4.metabolismRate }) (fun x => rfl), hfe6]
    rfl
  rw [hG6] at h7
  refine ⟨Δ, (fun e => if e.energy ≤ 0 then { e with state := "dead" } else e)
      ({ e6 with
        age := e4.age,
        energy := min (e4.energy + Δ.sum) e6.maxEnergy,
        metabolismRate := e4.metabolismRate,
        traitGain := Δ.sum }), ?_, ?_, ?_, ?_, ?_⟩
  · rw [hB, findEntity_modify _ id
      (fun e => if e.energy ≤ 0 then { e with state := "dead" } else e)
      (fun x => deathCheck_id x), h7]
    rfl
  · rw [hB]
    show (executeTraits (modifyEntity (stage4 s id) id
      (fun e => { e with traitGain := 0 })) id o).1.deliveredLog
        = s.deliveredLog ++ Δ
    exact hL6
  · exact (deathCheck_fields ({ e6 with
      age := e4.age,
      energy := min (e4.energy + Δ.sum) e6.maxEnergy,
      metabolismRate := e4.metabolismRate,
      traitGain := Δ.sum })).2.2.1
  · exact (deathCheck_fields ({ e6 with
      age := e4.age,
      energy := min (e4.energy + Δ.sum) e6.maxEnergy,
      metabolismRate := e4.metabolismRate,
      traitGain := Δ.sum })).2.1
  · exact (deathCheck_fields ({ e6 with
      age := e4.age,
      energy := min (e4.energy + Δ.sum) e6.maxEnergy,
      metabolismRate := e4.metabolismRate,
      traitGain := Δ.sum })).1.trans
      ((congrArg (fun z => min (e4.energy + Δ.sum) z)
        (deathCheck_fields ({ e6 with
          age := e4.age,
          energy := min (e4.energy + Δ.sum) e6.maxEnergy,
          metabolismRate := e4.metabolismRate,
          traitGain := Δ.sum })).2.2.2).symm)

/-- C6 counterexample: an entity with energy 50, metabolism 1, not
infected, whose single trait is delivered 10 through `_receive_energy`.
The sum of delivered energies is 10 (and 50 + 10 is below max_energy
100), yet post-tick energy is 59: the energy increase is the delivered
sum MINUS the metabolism (and infection) drain, not the delivered sum. -/
theorem update_energy_drift_C6 :
    ((findEntity (baseUpdate exSimE "E" exOracleRecv) "E").map Entity.energy).getD 0
      = 59 ∧
    exEntE.energy = 50 ∧
    (baseUpdate exSimE "E" exOracleRecv).deliveredLog = [10] ∧
    ¬ ((59 : ℚ) - 50 = 10) := by
  exact ⟨by decide, by decide, by decide, by decide⟩

/-- C6 (amended): for every entity update, the post-update
metabolism_rate equals the pre-update value and the age advances by
exactly one tick, whatever the entity's trait code does (the update
snapshots and restores them); and the post-update energy is
`min(pre_energy − metabolism_rate − infection_drain + Σ delivered,
max_energy)`, where `Σ delivered` is the sum of the energies credited
through `_receive_energy` during this update — these credits are exactly
the new entries of the delivery log.  Trait code cannot otherwise raise
energy, stop aging, or change the metabolism rate.  (The energy increase
is NOT the delivered sum itself: the metabolism/infection drain is
deducted first; and in the current source the `eat_nearby` delivery path
is dead — `Environment.consume_resource` raises `AttributeError` — so
`Σ delivered` can only come from the specified delivery interface.) -/
theorem energy_sandbox_C6 (s : Sim) (id : String) (o : Oracle) (e : Entity)
    (hfe : findEntity s id = some e) :
    ∃ (Δ : List ℚ) (e' : Entity),
      findEntity (baseUpdate s id o) id = some e' ∧
      (baseUpdate s id o).deliveredLog = s.deliveredLog ++ Δ ∧
      e'.metabolismRate = e.metabolismRate ∧
      e'.age = e.age + 1 ∧
      e'.energy = min (e.energy - e.metabolismRate -
        (if e.infected then 2 else 0) + Δ.sum) e'.maxEnergy := by
  have h4m : findEntity (stage4 s id) id =
      some ((fun x => if x.infected then { x with energy := x.energy - 2 } else x)
        ((fun x => { x with energy := x.energy - x.metabolismRate })
          ((fun x => if 0 < x.maxAge ∧ x.maxAge ≤ x.age then
              { x with state := "dead" } else x)
            ({ e with age := e.age + 1 })))) := by
    unfold stage4
    rw [findEntity_modify _ id
        (fun x => if x.infected then { x with energy := x.energy - 2 } else x)
        (fun x => infDrain_id x),
      findEntity_modify _ id
        (fun x => { x with energy := x.energy - x.metabolismRate }) (fun x => rfl),
      findEntity_modify _ id
        (fun x => if 0 < x.maxAge ∧ x.maxAge ≤ x.age then
          { x with state := "dead" } else x) (fun x => killCheck_id x),
      findEntity_modify _ id (fun x => { x with age := x.age + 1 }) (fun x => rfl),
      hfe]
    rfl
  by_cases hkill : 0 < e.maxAge ∧ e.maxAge ≤ e.age + 1
  · cases hinf : e.infected with
    | true =>
      have h4c : findEntity (stage4 s id) id = some { e with
          age := e.age + 1,
          state := "dead",
          energy := e.energy - e.metabolismRate - 2 } := by
        rw [h4m]
        simp [hkill, hinf]
      obtain ⟨Δ, e', hfe', hlog, hmet, hage, hen⟩ := baseUpdate_post s id o _ h4c
      refine ⟨Δ, e', hfe', hlog, hmet, hage, ?_⟩
      rw [if_pos rfl]
      exact hen
    | false =>
      have h4c : findEntity (stage4 s id) id = some { e with
          age := e.age + 1,
          state := "dead",
          energy := e.energy - e.metabolismRate } := by
        rw [h4m]
        simp [hkill, hinf]
      obtain ⟨Δ, e', hfe', hlog, hmet, hage, hen⟩ := baseUpdate_post s id o _ h4c
      refine ⟨Δ, e', hfe', hlog, hmet, hage, ?_⟩
      rw [if_neg (by exact Bool.false_ne_true), sub_zero]
      exact hen
  · cases hinf : e.infected with
    | true =>
      have h4c : findEntity (stage4 s id) id = some { e with
          age := e.age + 1,
          energy := e.energy - e.metabolismRate - 2 } := by
        rw [h4m]
        simp [hkill, hinf]
      obtain ⟨Δ, e', hfe', hlog, hmet, hage, hen⟩ := baseUpdate_post s id o _ h4c
      refine ⟨Δ, e', hfe', hlog, hmet, hage, ?_⟩
      rw [if_pos rfl]
      exact hen
    | false =>
      have h4c : findEntity (stage4 s id) id = some { e with
          age := e.age + 1,
          energy := e.energy - e.metabolismRate } := by
        rw [h4m]
        simp [hkill, hinf]
      obtain ⟨Δ, e', hfe', hlog, hmet, hage, hen⟩ := baseUpdate_post s id o _ h4c
      refine ⟨Δ, e', hfe', hlog, hmet, hage, ?_⟩
      rw [if_neg (by exact Bool.false_ne_true), sub_zero]
      exact hen

theorem energy_sandbox_C6_witness :
    ∃ (Δ : List ℚ) (e' : Entity),
      findEntity (baseUpdate exSimE "E" exOracleRecv) "E" = some e' ∧
      (baseUpdate exSimE "E" exOracleRecv).deliveredLog
        = exSimE.deliveredLog ++ Δ ∧
      e'.metabolismRate = exEntE.metabolismRate ∧
      e'.age = exEntE.age + 1 ∧
      e'.energy = min (exEntE.energy - exEntE.metabolismRate -
        (if exEntE.infected then 2 else 0) + Δ.sum) e'.maxEnergy :=
  energy_sandbox_C6 exSimE "E" exOracleRecv exEntE (by decide)

/-! ### C2 — world invariant after a tick -/

/-- C2 counterexample: two overlapping molbots standing just inside the
left wall.  The bounds pass clamps both inside the world, but collision
resolution runs AFTER the bounds pass inside `_apply_physics` and
separates the pair along the centre normal, pushing entity `A` to
x = −1/20 < 0: the position invariant does not hold when the tick
ends. -/
theorem tick_bounds_violation_C2 :
    ∃ e ∈ (tick exSimC2 tickInputNil).1.entities, e.x < 0 := by
  decide

theorem xClampB_x_bounds (w : ℚ) (e : Entity) (hr : 0 ≤ e.radius)
    (hw : 2 * e.radius ≤ w) :
    0 ≤ (xClampB w e).x ∧ (xClampB w e).x ≤ w := by
  unfold xClampB
  by_cases h1 : e.x - e.radius < 0
  · rw [if_pos h1]
    constructor
    · show 0 ≤ e.radius
      exact hr
    · show e.radius ≤ w
      linarith
  · rw [if_neg h1]
    by_cases h2 : w < e.x + e.radius
    · rw [if_pos h2]
      constructor
      · show 0 ≤ w - e.radius
        linarith
      · show w - e.radius ≤ w
        linarith
    · rw [if_neg h2]
      constructor
      · show (0 : ℚ) ≤ e.x
        linarith [not_lt.mp h1]
      · show e.x ≤ w
        linarith [not_lt.mp h2]

theorem yClampB_y_bounds (h : ℚ) (e : Entity) (hr : 0 ≤ e.radius)
    (hh : 2 * e.radius ≤ h) :
    0 ≤ (yClampB h e).y ∧ (yClampB h e).y ≤ h := by
  unfold yClampB
  by_cases h1 : e.y - e.radius < 0
  · rw [if_pos h1]
    constructor
    · show 0 ≤ e.radius
      exact hr
    · show e.radius ≤ h
      linarith
  · rw [if_neg h1]
    by_cases h2 : h < e.y + e.radius
    · rw [if_pos h2]
      constructor
      · show 0 ≤ h - e.radius
        linarith
      · show h - e.radius ≤ h
        linarith
    · rw [if_neg h2]
      constructor
      · show (0 : ℚ) ≤ e.y
        linarith [not_lt.mp h1]
      · show e.y ≤ h
        linarith [not_lt.mp h2]

theorem xClampB_radius (w : ℚ) (e : Entity) : (xClampB w e).radius = e.radius := by
  unfold xClampB
  split_ifs <;> rfl

theorem yClampB_x (h : ℚ) (e : Entity) : (yClampB h e).x = e.x := by
  unfold yClampB
  split_ifs <;> rfl

theorem xClampB_state (w : ℚ) (e : Entity) : (xClampB w e).state = e.state := by
  unfold xClampB
  split_ifs <;> rfl

theorem xClampB_energy (w : ℚ) (e : Entity) : (xClampB w e).energy = e.energy := by
  unfold xClampB
  split_ifs <;> rfl

theorem yClampB_state (h : ℚ) (e : Entity) : (yClampB h e).state = e.state := by
  unfold yClampB
  split_ifs <;> rfl

theorem yClampB_energy (h : ℚ) (e : Entity) : (yClampB h e).energy = e.energy := by
  unfold yClampB
  split_ifs <;> rfl

theorem applyBoundsE_state (w h : ℚ) (m : BMode) (e : Entity) :
    (applyBoundsE w h m e).state = e.state := by
  cases m with
  | bounce =>
    show (yClampB h (xClampB w e)).state = e.state
    rw [yClampB_state h (xClampB w e), xClampB_state w e]
  | wrap =>
    unfold applyBoundsE
    dsimp only
    split_ifs <;> rfl

theorem applyBoundsE_energy (w h : ℚ) (m : BMode) (e : Entity) :
    (applyBoundsE w h m e).energy = e.energy := by
  cases m with
  | bounce =>
    show (yClampB h (xClampB w e)).energy = e.energy
    rw [yClampB_energy h (xClampB w e), xClampB_energy w e]
  | wrap =>
    unfold applyBoundsE
    dsimp only
    split_ifs <;> rfl

theorem StEn_refl (s : Sim) : StEn s s := fun e' he' => ⟨e', he', rfl, rfl⟩

theorem StEn_trans (s₁ s₂ s₃ : Sim) (h1 : StEn s₁ s₂) (h2 : StEn s₂ s₃) :
    StEn s₁ s₃ := by
  intro e' he'
  obtain ⟨e2, he2, hs2, hen2⟩ := h2 e' he'
  obtain ⟨e1, he1, hs1, hen1⟩ := h1 e2 he2
  exact ⟨e1, he1, hs2.trans hs1, hen2.trans hen1⟩

theorem stEn_of_entities_eq (s₁ s₂ : Sim) (h : s₂.entities = s₁.entities) :
    StEn s₁ s₂ := by
  intro e' he'
  rw [h] at he'
  exact ⟨e', he', rfl, rfl⟩

theorem stEn_modify (s : Sim) (j : String) (f : Entity → Entity)
    (hs : ∀ e, (f e).state = e.state) (he : ∀ e, (f e).energy = e.energy) :
    StEn s (modifyEntity s j f) := by
  intro e' he'
  obtain ⟨e0, h0, heq⟩ := mem_modifyEntity he'
  by_cases hid : e0.id = j
  · rw [heq, if_pos hid]
    exact ⟨e0, h0, hs e0, he e0⟩
  · rw [heq, if_neg hid]
    exact ⟨e0, h0, rfl, rfl⟩

theorem stEn_foldl {α : Type} (step : Sim → α → Sim)
    (hstep : ∀ (w : Sim) (a : α), StEn w (step w a)) :
    ∀ (l : List α) (w : Sim), StEn w (l.foldl step w) := by
  intro l
  induction l with
  | nil => intro w; exact StEn_refl w
  | cons a rest ih =>
    intro w
    rw [List.foldl_cons]
    exact StEn_trans w (step w a) _ (hstep w a) (ih (step w a))

theorem stEn_modify2 (s : Sim) (j k : String) (f g : Entity → Entity)
    (hfs : ∀ e, (f e).state = e.state) (hfe : ∀ e, (f e).energy = e.energy)
    (hgs : ∀ e, (g e).state = e.state) (hge : ∀ e, (g e).energy = e.energy) :
    StEn s (modifyEntity (modifyEntity s j f) k g) :=
  StEn_trans s (modifyEntity s j f) _ (stEn_modify s j f hfs hfe)
    (stEn_modify _ k g hgs hge)

theorem stEn_resolveCollision (s : Sim) (ida idb : String) :
    StEn s (resolveCollision s ida idb) := by
  unfold resolveCollision
  cases hfa : findEntity s ida with
  | none => exact StEn_refl s
  | some a =>
    cases hfb : findEntity s idb with
    | none => exact StEn_refl s
    | some b =>
      dsimp only
      split_ifs with h1 h2 h3
      · exact stEn_modify2 s ida idb _ _
          (fun e => rfl) (fun e => rfl) (fun e => rfl) (fun e => rfl)
      · exact StEn_refl s
      · exact stEn_modify2 s ida idb _ _
          (fun e => rfl) (fun e => rfl) (fun e => rfl) (fun e => rfl)
      · exact StEn_refl s

theorem stEn_applyPhysicsStage (s : Sim) : StEn s (applyPhysicsStage s) := by
  have h1 : StEn s (((s.entities.filter Entity.isAlive).map Entity.id).foldl
      (fun acc id => modifyEntity acc id
        (applyBoundsE acc.settings.worldWidth acc.settings.worldHeight
          acc.boundaryMode)) s) :=
    stEn_foldl _ (fun w a => stEn_modify w a _
      (fun e => applyBoundsE_state _ _ _ e)
      (fun e => applyBoundsE_energy _ _ _ e)) _ s
  have h2 : StEn s (rebuildGrid (((s.entities.filter Entity.isAlive).map
      Entity.id).foldl
      (fun acc id => modifyEntity acc id
        (applyBoundsE acc.settings.worldWidth acc.settings.worldHeight
          acc.boundaryMode)) s)) :=
    StEn_trans s _ _ h1 (stEn_of_entities_eq _ _ rfl)
  have h3 := stEn_foldl (fun acc (p : String × String) =>
      resolveCollision acc p.1 p.2)
    (fun w p => stEn_resolveCollision w p.1 p.2)
    (collisionPairs (rebuildGrid (((s.entities.filter Entity.isAlive).map
      Entity.id).foldl
      (fun acc id => modifyEntity acc id
        (applyBoundsE acc.settings.worldWidth acc.settings.worldHeight
          acc.boundaryMode)) s)))
    (rebuildGrid (((s.entities.filter Entity.isAlive).map Entity.id).foldl
      (fun acc id => modifyEntity acc id
        (applyBoundsE acc.settings.worldWidth acc.settings.worldHeight
          acc.boundaryMode)) s))
  exact StEn_trans s _ _ h2 h3

theorem stEn_handleDeaths (s : Sim) : StEn s (handleDeathsStage s) := by
  intro e' he'
  have h2 : e' ∈ s.entities.filter Entity.isAlive := he'
  exact ⟨e', (List.mem_filter.mp h2).1, rfl, rfl⟩

theorem alivePos_of_stEn (s₁ s₂ : Sim) (hse : StEn s₁ s₂)
    (h : AliveEnergyPos s₁) : AliveEnergyPos s₂ := by
  intro e' he'
  obtain ⟨e, he, hs, hen⟩ := hse e' he'
  intro hst
  rw [hen]
  rw [hs] at hst
  exact h e he hst

theorem posAllBut_eq_of_entities (s₁ s₂ : Sim) (id : String)
    (h : s₁.entities = s₂.entities) (hp : PosEAllBut s₂ id) : PosEAllBut s₁ id := by
  intro e he hne
  rw [h] at he
  exact hp e he hne

theorem posAllBut_modify_self (s : Sim) (id : String) (f : Entity → Entity)
    (hf : ∀ e, (f e).id = e.id) (h : PosEAllBut s id) :
    PosEAllBut (modifyEntity s id f) id := by
  intro e' he' hne
  obtain ⟨e0, h0, heq⟩ := mem_modifyEntity he'
  by_cases hid : e0.id = id
  · rw [heq, if_pos hid] at hne
    exact absurd ((hf e0).trans hid) hne
  · rw [heq, if_neg hid]
    rw [heq, if_neg hid] at hne
    exact h e0 h0 hne

theorem posAllBut_modify_posE (s : Sim) (j id : String) (f : Entity → Entity)
    (hP : ∀ e, PosE (f e)) (h : PosEAllBut s id) :
    PosEAllBut (modifyEntity s j f) id := by
  intro e' he' hne
  obtain ⟨e0, h0, heq⟩ := mem_modifyEntity he'
  by_cases hid : e0.id = j
  · rw [heq, if_pos hid]
    exact hP e0
  · rw [heq, if_neg hid]
    rw [heq, if_neg hid] at hne
    exact h e0 h0 hne

theorem damage_posE (d : ℚ) (t : Entity) :
    PosE (if ({ t with energy := t.energy - d } : Entity).energy ≤ 0
      then { ({ t with energy := t.energy - d } : Entity) with state := "dead" }
      else { t with energy := t.energy - d }) := by
  by_cases hle : ({ t with energy := t.energy - d } : Entity).energy ≤ 0
  · rw [if_pos hle]
    intro hc
    exact absurd (show ("dead" : String) = "alive" from hc) (by decide)
  · rw [if_neg hle]
    intro hal
    exact not_le.mp hle

theorem deathCheck_posE (x : Entity) :
    PosE (if x.energy ≤ 0 then { x with state := "dead" } else x) := by
  by_cases hle : x.energy ≤ 0
  · rw [if_pos hle]
    intro hc
    exact absurd (show ("dead" : String) = "alive" from hc) (by decide)
  · rw [if_neg hle]
    intro hal
    exact not_le.mp hle

theorem alivePos_of_posAllBut_deathcheck (s : Sim) (id : String)
    (h : PosEAllBut s id) :
    AliveEnergyPos (modifyEntity s id
      (fun e => if e.energy ≤ 0 then { e with state := "dead" } else e)) := by
  intro e' he'
  obtain ⟨e0, h0, heq⟩ := mem_modifyEntity he'
  by_cases hid : e0.id = id
  · rw [heq, if_pos hid]
    exact deathCheck_posE e0
  · rw [heq, if_neg hid]
    exact h e0 h0 hid

theorem posAllBut_applyAction (s : Sim) (id : String) (a : TAction)
    (h : PosEAllBut s id) : PosEAllBut (applyAction s id a).1 id := by
  cases a with
  | move dx dy => exact posAllBut_modify_self s id _ (fun e => rfl) h
  | setX v => exact posAllBut_modify_self s id _ (fun e => rfl) h
  | setY v => exact posAllBut_modify_self s id _ (fun e => rfl) h
  | setEnergy v => exact posAllBut_modify_self s id _ (fun e => rfl) h
  | setAge v => exact posAllBut_modify_self s id _ (fun e => rfl) h
  | setMaxEnergy v => exact posAllBut_modify_self s id _ (fun e => rfl) h
  | setMetabolism v => exact posAllBut_modify_self s id _ (fun e => rfl) h
  | setState st => exact posAllBut_modify_self s id _ (fun e => rfl) h
  | deactivate m => exact posAllBut_modify_self s id _ (addDeact_id m) h
  | activate m => exact posAllBut_modify_self s id _ (fun e => rfl) h
  | receive q =>
    show PosEAllBut (receiveEnergy s id q) id
    exact posAllBut_eq_of_entities _ _ id rfl
      (posAllBut_modify_self s id _ (fun e => rfl) h)
  | eat r =>
    have hst := eatNearby_state s id r
    cases he : eatNearby s id r with
    | mk s' res =>
      have hs : s' = s := by rw [← hst, he]
      subst hs
      unfold applyAction
      dsimp only
      rw [he]
      cases res with
      | ok b => exact h
      | error err => exact h
  | attack r d =>
    show PosEAllBut (attackNearby s id r d).1 id
    unfold attackNearby
    cases findEntity s id with
    | none => exact h
    | some e =>
      dsimp only
      split
      · exact h
      · cases hp : (nearbyEntities s e.x e.y r).filter
            (fun p => p.entityType = "predator" && p.isAlive && !(p.id = id)) with
        | nil => exact h
        | cons p ps =>
          dsimp only
          exact posAllBut_modify_posE s _ id _ (fun t => damage_posE d t) h

theorem posAllBut_runActions (id : String) :
    ∀ (l : List TAction) (s : Sim),
      PosEAllBut s id → PosEAllBut (runActions s id l).1 id := by
  intro l
  induction l with
  | nil => intro s h; exact h
  | cons a rest ih =>
    intro s h
    unfold runActions
    cases ha : applyAction s id a with
    | mk s' err =>
      have hstep := posAllBut_applyAction s id a h
      rw [ha] at hstep
      cases err with
      | none => exact ih s' hstep
      | some e => exact hstep

theorem posAllBut_executeOneTrait (s : Sim) (id name : String) (oc : TraitOutcome)
    (h : PosEAllBut s id) : PosEAllBut (executeOneTrait s id name oc).1 id := by
  unfold executeOneTrait
  cases hr : runActions s id oc.actions with
  | mk s' err =>
    have hrun := posAllBut_runActions id oc.actions s h
    rw [hr] at hrun
    cases err with
    | some e =>
      dsimp only
      exact posAllBut_eq_of_entities _ s' id (onTraitError_entities s' name) hrun
    | none =>
      dsimp only
      cases oc.ending with
      | ok => exact hrun
      | raised =>
        exact posAllBut_eq_of_entities _ s' id (onTraitError_entities s' name) hrun
      | timeout => exact hrun

theorem posAllBut_execStep (o : Oracle) (id : String) (t : TraitInst) (i : ℕ)
    (s : Sim) (h : PosEAllBut s id) : PosEAllBut (execStepState o id t i s) id := by
  have hE : execStepState o id t i s =
      if (executeOneTrait s id t.className (o.outcome id i)).2 = true then
        (executeOneTrait s id t.className (o.outcome id i)).1
      else
        modifyEntity (executeOneTrait s id t.className (o.outcome id i)).1 id
          (addDeact t.className) := rfl
  rw [hE]
  have h1 := posAllBut_executeOneTrait s id t.className (o.outcome id i) h
  by_cases hsucc : (executeOneTrait s id t.className (o.outcome id i)).2 = true
  · rw [if_pos hsucc]
    exact h1
  · rw [if_neg hsucc]
    exact posAllBut_modify_self _ id _ (addDeact_id t.className) h1

theorem posAllBut_execAux (o : Oracle) (id : String) :
    ∀ (ts : List TraitInst) (i : ℕ) (s : Sim),
      PosEAllBut s id → PosEAllBut (execTraitsAux o id ts i s).1 id := by
  intro ts
  induction ts with
  | nil => intro i s h; exact h
  | cons t rest ih =>
    intro i s h
    by_cases hb : o.budget id i = true
    · rw [execAux_cons_budget o id t rest i s hb]
      exact h
    · by_cases hsk : t.className ∈ ((findEntity s id).map Entity.deactivated).getD []
      · rw [execAux_cons_skip o id t rest i s (eq_false_of_ne_true hb) hsk]
        exact ih (i + 1) s h
      · rw [execAux_cons_run o id t rest i s (eq_false_of_ne_true hb) hsk]
        exact ih (i + 1) _ (posAllBut_execStep o id t i s h)

theorem posAllBut_executeTraits (s : Sim) (id : String) (o : Oracle)
    (h : PosEAllBut s id) : PosEAllBut (executeTraits s id o).1 id := by
  cases hts : ((findEntity s id).map Entity.traits).getD [] with
  | nil =>
    rw [executeTraits_nil s id o hts]
    exact h
  | cons t rest =>
    rw [executeTraits_cons s id o t rest hts]
    exact posAllBut_execAux o id (t :: rest) 0 s h

theorem alivePos_of_posAllBut_none (s : Sim) (id : String)
    (hnone : findEntity s id = none) (h : PosEAllBut s id) : AliveEnergyPos s := by
  intro e he
  apply h e he
  have h2 := List.find?_eq_none.mp hnone e he
  simpa using h2

theorem alivePos_baseUpdate (s : Sim) (id : String) (o : Oracle)
    (h : AliveEnergyPos s) : AliveEnergyPos (baseUpdate s id o) := by
  have hq : PosEAllBut s id := fun e he _ => h e he
  have hq4 : PosEAllBut (stage4 s id) id := by
    unfold stage4
    exact posAllBut_modify_self _ id _ (fun x => infDrain_id x)
      (posAllBut_modify_self _ id _ (fun x => rfl)
        (posAllBut_modify_self _ id _ (fun x => killCheck_id x)
          (posAllBut_modify_self _ id _ (fun x => rfl) hq)))
  cases hm : findEntity (stage4 s id) id with
  | none =>
    have hB : baseUpdate s id o = stage4 s id := by
      show (match findEntity (stage4 s id) id with
            | none => stage4 s id
            | some snap =>
              modifyEntity (modifyEntity (executeTraits (modifyEntity (stage4 s id) id
                (fun e => { e with traitGain := 0 })) id o).1 id
                (fun e => { e with
                  age := snap.age,
                  energy := min (snap.energy + e.traitGain) e.maxEnergy,
                  metabolismRate := snap.metabolismRate })) id
                (fun e => if e.energy ≤ 0 then { e with state := "dead" } else e))
          = stage4 s id
      rw [hm]
    rw [hB]
    exact alivePos_of_posAllBut_none (stage4 s id) id hm hq4
  | some snap =>
    have hB : baseUpdate s id o =
        modifyEntity (modifyEntity (executeTraits (modifyEntity (stage4 s id) id
          (fun e => { e with traitGain := 0 })) id o).1 id
          (fun e => { e with
            age := snap.age,
            energy := min (snap.energy + e.traitGain) e.maxEnergy,
            metabolismRate := snap.metabolismRate })) id
          (fun e => if e.energy ≤ 0 then { e with state := "dead" } else e) := by
      show (match findEntity (stage4 s id) id with
            | none => stage4 s id
            | some snap =>
              modifyEntity (modifyEntity (executeTraits (modifyEntity (stage4 s id) id
                (fun e => { e with traitGain := 0 })) id o).1 id
                (fun e => { e with
                  age := snap.age,
                  energy := min (snap.energy + e.traitGain) e.maxEnergy,
                  metabolismRate := snap.metabolismRate })) id
                (fun e => if e.energy ≤ 0 then { e with state := "dead" } else e)) = _
      rw [hm]
    rw [hB]
    exact alivePos_of_posAllBut_deathcheck _ id
      (posAllBut_modify_self _ id _ (fun x => rfl)
        (posAllBut_executeTraits _ id o
          (posAllBut_modify_self _ id _ (fun x => rfl) hq4)))

theorem alivePos_predatorUpdate (s : Sim) (id : String)
    (h : AliveEnergyPos s) : AliveEnergyPos (predatorUpdate s id) := by
  have hq : PosEAllBut s id := fun e he _ => h e he
  show AliveEnergyPos (modifyEntity (modifyEntity (modifyEntity s id
    (fun e => { e with age := e.age + 1, energy := e.energy - e.metabolismRate })) id
    (fun e => if 0 < e.maxAge ∧ e.maxAge ≤ e.age then { e with state := "dead" } else e)) id
    (fun e => if e.energy ≤ 0 then { e with state := "dead" } else e))
  exact alivePos_of_posAllBut_deathcheck _ id
    (posAllBut_modify_self _ id _ (fun x => killCheck_id x)
      (posAllBut_modify_self _ id _ (fun x => rfl) hq))

theorem alivePos_updateEntity (s : Sim) (id : String) (o : Oracle)
    (h : AliveEnergyPos s) : AliveEnergyPos (updateEntity s id o) := by
  unfold updateEntity
  cases hm : findEntity s id with
  | none => exact h
  | some e =>
    dsimp only
    cases hcls : e.cls with
    | base => exact alivePos_baseUpdate s id o h
    | predator => exact alivePos_predatorUpdate s id h

theorem alivePos_updateEntitiesStage (s : Sim) (o : Oracle)
    (h : AliveEnergyPos s) : AliveEnergyPos (updateEntitiesStage s o) := by
  have hgen : ∀ (ids : List String) (w : Sim), AliveEnergyPos w →
      AliveEnergyPos (ids.foldl (fun acc id => updateEntity acc id o) w) := by
    intro ids
    induction ids with
    | nil => intro w hw; exact hw
    | cons i rest ih =>
      intro w hw
      rw [List.foldl_cons]
      exact ih (updateEntity w i o) (alivePos_updateEntity w i o hw)
  exact hgen ((s.entities.filter Entity.isAlive).map Entity.id) s h

theorem alivePos_tick (s : Sim) (tin : TickInput)
    (h : AliveEnergyPos s) : AliveEnergyPos (tick s tin).1 := by
  have hB : (tick s tin).1 =
      handleDeathsStage (applyPhysicsStage (updateEntitiesStage s tin.oracle)) := rfl
  rw [hB]
  exact alivePos_of_stEn _ _ (stEn_handleDeaths _)
    (alivePos_of_stEn _ _ (stEn_applyPhysicsStage _)
      (alivePos_updateEntitiesStage s tin.oracle h))

theorem applyBounds_bounce_bounds (w h : ℚ) (e : Entity) (hr : 0 ≤ e.radius)
    (hw : 2 * e.radius ≤ w) (hh : 2 * e.radius ≤ h) :
    0 ≤ (applyBoundsE w h .bounce e).x ∧ (applyBoundsE w h .bounce e).x ≤ w ∧
    0 ≤ (applyBoundsE w h .bounce e).y ∧ (applyBoundsE w h .bounce e).y ≤ h := by
  have hxb := xClampB_x_bounds w e hr hw
  have hyr : (xClampB w e).radius = e.radius := xClampB_radius w e
  have hyb := yClampB_y_bounds h (xClampB w e) (by rw [hyr]; exact hr)
    (by rw [hyr]; exact hh)
  have hx1 : (applyBoundsE w h .bounce e).x = (xClampB w e).x := by
    show (yClampB h (xClampB w e)).x = (xClampB w e).x
    exact yClampB_x h (xClampB w e)
  have hy1 : (applyBoundsE w h .bounce e).y = (yClampB h (xClampB w e)).y := rfl
  refine ⟨?_, ?_, ?_, ?_⟩
  · rw [hx1]
    exact hxb.1
  · rw [hx1]
    exact hxb.2
  · rw [hy1]
    exact hyb.1
  · rw [hy1]
    exact hyb.2

/-- C2 (amended): the two halves of the §8 world invariant hold in
different places.  (i) Position: `apply_bounds` in bounce mode clamps an
entity into `[0, w] × [0, h]` whenever its radius fits the world
(0 ≤ r, 2r ≤ w, 2r ≤ h) — but only right after the bounds pass:
collision resolution runs after it inside `_apply_physics` and can push
an entity back out, so the bound is NOT guaranteed at tick end (see the
overlapping-pair counterexample).  (ii) Energy: after any tick every
alive entity has positive energy, for every world satisfying the
invariant before the tick and every trait behaviour — each entity update
ends with a death check that marks non-positive energy dead, attack
damage marks drained victims dead, and the remaining stages of the tick
(physics, death sweep) never change state or energy. -/
theorem world_invariant_C2 (w h : ℚ) (b : Entity) (s : Sim) (tin : TickInput)
    (hr : 0 ≤ b.radius) (hw : 2 * b.radius ≤ w) (hh : 2 * b.radius ≤ h)
    (hs : AliveEnergyPos s) :
    (0 ≤ (applyBoundsE w h .bounce b).x ∧ (applyBoundsE w h .bounce b).x ≤ w ∧
     0 ≤ (applyBoundsE w h .bounce b).y ∧ (applyBoundsE w h .bounce b).y ≤ h) ∧
    AliveEnergyPos (tick s tin).1 :=
  ⟨applyBounds_bounce_bounds w h b hr hw hh, alivePos_tick s tin hs⟩

theorem world_invariant_C2_witness :
    (0 ≤ (applyBoundsE 2000 2000 .bounce exEntA).x ∧
     (applyBoundsE 2000 2000 .bounce exEntA).x ≤ 2000 ∧
     0 ≤ (applyBoundsE 2000 2000 .bounce exEntA).y ∧
     (applyBoundsE 2000 2000 .bounce exEntA).y ≤ 2000) ∧
    AliveEnergyPos (tick exSimC2 tickInputNil).1 :=
  world_invariant_C2 2000 2000 exEntA exSimC2 tickInputNil
    (by decide) (by decide) (by decide)
    (by unfold AliveEnergyPos PosE; decide)

end AiGenesis
